import Mathlib

/-!
Verification development for the budget-bot Telegram expense-tracker webhook
(`final.py`).  The Python source is shallowly embedded: pure helpers become
Lean functions over `List Char` / `String`, the DynamoDB table becomes a list
of items keyed by `message_id`, the in-process `deletion_confirmations` dict
becomes an association list, and the external capabilities (HTTP classifier
call, `json.loads`, `uuid4`, wall clock) become an explicit environment
record.  Machine floats of the source are modelled as rationals; every
definition is executable.
-/

namespace BudgetBot

/-- Exact rational number, used to model the Python floats of the source
(amounts, JSON numbers, `time.time()` values).  A bespoke normalised
fraction type is used so that every arithmetic operation reduces inside
the kernel, keeping all concrete evaluations decidable. -/
structure Q where
  num : Int
  den : Nat
deriving DecidableEq, Repr

/-- Normalised fraction constructor. -/
def Q.mk' (n : Int) (d : Nat) : Q :=
  let g := Nat.gcd n.natAbs d
  ⟨n / (g : Int), d / g⟩

instance (n : Nat) : OfNat Q n := ⟨⟨n, 1⟩⟩

/-- Embed an integer. -/
def Q.ofInt (n : Int) : Q := ⟨n, 1⟩

/-- Multiplication. -/
def Q.mul (a b : Q) : Q := Q.mk' (a.num * b.num) (a.den * b.den)

/-- Addition. -/
def Q.add (a b : Q) : Q :=
  Q.mk' (a.num * (b.den : Int) + b.num * (a.den : Int)) (a.den * b.den)

instance : Mul Q := ⟨Q.mul⟩

instance : Add Q := ⟨Q.add⟩

/-- Boolean comparison by cross multiplication. -/
def Q.ble (a b : Q) : Bool := a.num * (b.den : Int) ≤ b.num * (a.den : Int)

/-- Boolean strict comparison by cross multiplication. -/
def Q.blt (a b : Q) : Bool := a.num * (b.den : Int) < b.num * (a.den : Int)

instance : LE Q := ⟨fun a b => Q.ble a b = true⟩

instance : LT Q := ⟨fun a b => Q.blt a b = true⟩

instance : DecidableRel (α := Q) (· ≤ ·) :=
  fun a b => inferInstanceAs (Decidable (Q.ble a b = true))

instance : DecidableRel (α := Q) (· < ·) :=
  fun a b => inferInstanceAs (Decidable (Q.blt a b = true))

/-- ASCII lowercasing of one character, as Python `str.lower` acts on the
ASCII range (the only range the source ever feeds it). -/
def lowerChar : Char → Char
  | 'A' => 'a' | 'B' => 'b' | 'C' => 'c' | 'D' => 'd' | 'E' => 'e' | 'F' => 'f'
  | 'G' => 'g' | 'H' => 'h' | 'I' => 'i' | 'J' => 'j' | 'K' => 'k' | 'L' => 'l'
  | 'M' => 'm' | 'N' => 'n' | 'O' => 'o' | 'P' => 'p' | 'Q' => 'q' | 'R' => 'r'
  | 'S' => 's' | 'T' => 't' | 'U' => 'u' | 'V' => 'v' | 'W' => 'w' | 'X' => 'x'
  | 'Y' => 'y' | 'Z' => 'z'
  | c => c

/-- Python whitespace class (`\s`, and the characters removed by `str.strip`). -/
def isPySpace (c : Char) : Bool :=
  c = ' ' || c = '\t' || c = '\n' || c = '\r' || c = '\x0b' || c = '\x0c'

/-- `str.strip()` on a character list. -/
def pyStrip (l : List Char) : List Char :=
  ((l.dropWhile isPySpace).reverse.dropWhile isPySpace).reverse

/-- `s.replace(",", "")` on a character list. -/
def stripCommas (l : List Char) : List Char :=
  l.filter (fun c => c ≠ ',')

/-- `str.lower()` on a character list. -/
def pyLowerList (l : List Char) : List Char := l.map lowerChar

/-- `str.lower()` on a string. -/
def pyLower (s : String) : String := String.mk (pyLowerList s.data)

/-- `str.strip()` on a string. -/
def pyStripStr (s : String) : String := String.mk (pyStrip s.data)

/-- `extract_inr_amount` first normalises: `text.replace(',', '').lower().strip()`. -/
def normalizeAmountText (s : String) : List Char :=
  pyStrip (pyLowerList (stripCommas s.data))

/-- Decimal value of a digit-character list (most significant first). -/
def digitsVal (l : List Char) : Nat :=
  l.foldl (fun n c => 10 * n + (c.toNat - 48)) 0

/-- Suffix of the text starting at the first decimal digit; `none` when the
text has no digit.  This is where `re.search` anchors the match of
`(\d+(\.\d+)?)\s*(k|thousand|l|lakh|lakhs|cr|crore|crores)?`: the pattern
starts with `\d`, and everything after the digits is optional, so the
leftmost match begins exactly at the first digit. -/
def suffixFromFirstDigit : List Char → Option (List Char)
  | [] => none
  | c :: cs => if c.isDigit then some (c :: cs) else suffixFromFirstDigit cs

/-- The numeric part `\d+(\.\d+)?` matched greedily at the head of `l`
(whose head is a digit), returning the value of `float(match.group(1))`
and the unconsumed rest.  The optional fraction group needs at least one
digit after the dot, otherwise the regex backtracks and leaves the dot
unconsumed. -/
def parseNumberAt (l : List Char) : Q × List Char :=
  let ds := l.takeWhile Char.isDigit
  let rest := l.dropWhile Char.isDigit
  let intPart : Q := Q.ofInt (digitsVal ds)
  match rest with
  | '.' :: r2 =>
    let fs := r2.takeWhile Char.isDigit
    if fs = [] then (intPart, rest)
    else (intPart + Q.mk' (digitsVal fs) (10 ^ fs.length), r2.dropWhile Char.isDigit)
  | _ => (intPart, rest)

/-- The optional unit group `(k|thousand|l|lakh|lakhs|cr|crore|crores)?`
tried at position `l`, honouring the ordered alternation of the regex
(`l` is tried before `lakh`, `cr` before `crore`, so the longer
alternatives are dead); there is no word boundary after the unit, so a
plain prefix test is exactly what the regex does. -/
def multiplierToken (l : List Char) : Option (List Char) :=
  if ['k'].isPrefixOf l then some ['k']
  else if "thousand".data.isPrefixOf l then some "thousand".data
  else if ['l'].isPrefixOf l then some ['l']
  else if "lakh".data.isPrefixOf l then some "lakh".data
  else if "lakhs".data.isPrefixOf l then some "lakhs".data
  else if "cr".data.isPrefixOf l then some "cr".data
  else if "crore".data.isPrefixOf l then some "crore".data
  else if "crores".data.isPrefixOf l then some "crores".data
  else none

/-- The multiplier dispatch of `extract_inr_amount` on the captured group
(`if multiplier in ('k', 'thousand') ...`). -/
def applyMultiplier (amount : Q) : Option (List Char) → Q
  | none => amount
  | some m =>
    if m = ['k'] ∨ m = "thousand".data then amount * 1000
    else if m = ['l'] ∨ m = "lakh".data ∨ m = "lakhs".data then amount * 100000
    else if m = "cr".data ∨ m = "crore".data ∨ m = "crores".data then amount * 10000000
    else amount

/-- The regex-and-multiplier part of `extract_inr_amount`, applied to the
already-normalised text: find the first number, optionally skip
whitespace and apply an Indian-unit multiplier; `None` when no digit
occurs anywhere.  Python floats are modelled as exact rationals. -/
def extractCore (t : List Char) : Option Q :=
  match suffixFromFirstDigit t with
  | none => none
  | some m =>
    let p := parseNumberAt m
    let rest2 := p.2.dropWhile isPySpace
    some (applyMultiplier p.1 (multiplierToken rest2))

/-- `extract_inr_amount(text)`: normalisation followed by the regex
match. -/
def extract_inr_amount (text : String) : Option Q :=
  extractCore (normalizeAmountText text)


/-- Negation. -/
def Q.neg (a : Q) : Q := ⟨-a.num, a.den⟩

instance : Neg Q := ⟨Q.neg⟩

/-- Python `needle in haystack` substring test on character lists. -/
def hasInfix (needle : List Char) : List Char → Bool
  | [] => needle.isEmpty
  | c :: cs => needle.isPrefixOf (c :: cs) || hasInfix needle cs

/-- Python `needle in haystack` on strings. -/
def pyIn (needle hay : String) : Bool := hasInfix needle.data hay.data

/-- ASCII uppercasing of one character (for `str.title`). -/
def upperChar : Char → Char
  | 'a' => 'A' | 'b' => 'B' | 'c' => 'C' | 'd' => 'D' | 'e' => 'E' | 'f' => 'F'
  | 'g' => 'G' | 'h' => 'H' | 'i' => 'I' | 'j' => 'J' | 'k' => 'K' | 'l' => 'L'
  | 'm' => 'M' | 'n' => 'N' | 'o' => 'O' | 'p' => 'P' | 'q' => 'Q' | 'r' => 'R'
  | 's' => 'S' | 't' => 'T' | 'u' => 'U' | 'v' => 'V' | 'w' => 'W' | 'x' => 'X'
  | 'y' => 'Y' | 'z' => 'Z'
  | c => c

/-- Worker for `str.title`: the flag records whether the previous character
was alphabetic. -/
def pyTitleGo : Bool → List Char → List Char
  | _, [] => []
  | prevAlpha, c :: cs =>
    if c.isAlpha then
      (if prevAlpha then lowerChar c else upperChar c) :: pyTitleGo true cs
    else c :: pyTitleGo false cs

/-- Python `str.title()` restricted to the ASCII range. -/
def pyTitle (s : String) : String := String.mk (pyTitleGo false s.data)


/-- Python `float(s)` on the strings the source ever re-parses (its own
`format_inr` renderings and JSON string amounts): optional sign, digits,
optional fraction; whitespace is stripped; anything else fails (raises). -/
def parseUnsignedFloat (l : List Char) : Option Q :=
  let ds := l.takeWhile Char.isDigit
  let rest := l.dropWhile Char.isDigit
  match rest with
  | [] => if ds = [] then none else some (Q.ofInt (digitsVal ds))
  | '.' :: r2 =>
    let fs := r2.takeWhile Char.isDigit
    let rest2 := r2.dropWhile Char.isDigit
    if rest2 = [] then
      if ds = [] && fs = [] then none
      else some (Q.add (Q.ofInt (digitsVal ds)) (Q.mk' (digitsVal fs) (10 ^ fs.length)))
    else none
  | _ => none

/-- Python `float(s)`; `none` models a raised `ValueError`. -/
def pyFloat? (s : String) : Option Q :=
  match pyStrip s.data with
  | '-' :: r => (parseUnsignedFloat r).map Q.neg
  | '+' :: r => parseUnsignedFloat r
  | r => parseUnsignedFloat r

/-- A JSON value as produced by `json.loads`, distinguishing Python ints
from floats (slicing accepts only ints). -/
inductive JVal where
  | jint (n : Int)
  | jnum (q : Q)
  | jstr (s : String)
  | jbool (b : Bool)
  | jnull
deriving DecidableEq, Repr

/-- The JSON object shapes the two prompt contracts can return.  A field
holding `none` models an absent key; `some .jnull` models a key that is
present with JSON `null` — the distinction matters because
`dict.get(key, default)` only applies the default for an absent key. -/
structure JObj where
  amount : Option JVal := none
  category : Option JVal := none
  message : Option JVal := none
  days : Option JVal := none
  description : Option JVal := none
  limit : Option JVal := none
  count : Option JVal := none
  position : Option JVal := none
deriving DecidableEq, Repr

/-- The span matched by `re.search(r'\{.*\}', text, re.DOTALL)`: suffix
starting at the first opening brace. -/
def dropToBrace : List Char → Option (List Char)
  | [] => none
  | c :: cs => if c = '{' then some (c :: cs) else dropToBrace cs

/-- Longest prefix ending at the last closing brace, if any. -/
def keepToLastClose : List Char → Option (List Char)
  | [] => none
  | c :: cs =>
    match keepToLastClose cs with
    | some p => some (c :: p)
    | none => if c = '}' then some [c] else none

/-- `re.search(r'\{.*\}', text, re.DOTALL)`: greedy, so the match runs from
the first opening brace to the last closing brace after it. -/
def findJsonSpan (l : List Char) : Option (List Char) :=
  match dropToBrace l with
  | some (c :: cs) =>
    match keepToLastClose cs with
    | some p => some (c :: p)
    | none => none
  | _ => none

/-- The numeric value `format_inr` renders for a JSON amount value, i.e.
the value the rest of the pipeline observes after the render/re-parse
round trip (`format_inr` output stripped of commas parses back to the
same number).  `none` models the "???" sentinel produced when `float()`
raises inside `format_inr`. -/
def format_inr_val : JVal → Option Q
  | .jint n => some (Q.ofInt n)
  | .jnum q => some q
  | .jstr s => pyFloat? (String.mk (stripCommas s.data))
  | .jbool b => some (if b then 1 else 0)
  | .jnull => none

/-- `ExtractionResult` of the adapter: the `amount` is the numeric value
behind the rendered string, `none` standing for the "???" sentinel. -/
structure Analysis where
  amount : Option Q
  category : String
  message : String
deriving DecidableEq, Repr

/-- Emoji set for electronics (`determine_fallback_category`). -/
def electronics_emojis : List String :=
  ["💻", "📱", "⌚", "🖥️", "🖨️", "📷", "🎮"]

/-- Emoji set for food. -/
def food_emojis : List String :=
  ["🍕", "🍔", "🍟", "🍗", "🍖", "🥗", "🍣", "🍩", "🍦", "🍨", "🧁", "🍰", "🍪"]

/-- Emoji set for transport. -/
def transport_emojis : List String :=
  ["🚗", "🚕", "🚌", "🚆", "✈️", "🛵", "🚲", "🚅", "🚄"]

/-- The keyword table of `determine_fallback_category`, in declaration
order (Python dicts iterate in insertion order). -/
def category_keywords : List (String × List String) :=
  [("Food", ["food", "meal", "lunch", "dinner", "breakfast", "restaurant", "eat", "coffee", "tea", "cafe"]),
   ("Groceries", ["grocery", "groceries", "supermarket", "fruit", "vegetable"]),
   ("Transport", ["uber", "ola", "taxi", "auto", "transport", "travel", "bus", "train", "metro"]),
   ("Vehicle", ["car", "bike", "cycle", "repair", "service", "motor", "fuel", "petrol", "diesel"]),
   ("Bills", ["bill", "recharge", "subscription", "electricity", "water", "internet", "phone bill"]),
   ("Health", ["medicine", "doctor", "hospital", "medical", "health", "clinic", "dentist"]),
   ("Fashion", ["clothes", "dress", "shirt", "pant", "shoe", "footwear", "apparel", "fashion"]),
   ("Electronics", ["phone", "mobile", "laptop", "computer", "gadget", "electronics", "device"]),
   ("Entertainment", ["movie", "game", "show", "concert", "entertainment", "theatre", "amusement"]),
   ("Education", ["book", "course", "class", "tuition", "school", "college", "education"])]

/-- `determine_fallback_category(text)`: emoji sets first (tested against
the raw text), then the keyword table against the lowered text, default
`Miscellaneous`. -/
def determine_fallback_category (text : String) : String :=
  let text_lower := pyLower text
  if electronics_emojis.any (fun e => pyIn e text) then "Electronics"
  else if food_emojis.any (fun e => pyIn e text) then "Food"
  else if transport_emojis.any (fun e => pyIn e text) then "Transport"
  else
    match category_keywords.find? (fun ck => ck.2.any (fun kw => pyIn kw text_lower)) with
    | some ck => ck.1
    | none => "Miscellaneous"

/-- The canned message table of `generate_fallback_message`. -/
def fallback_messages : List (String × String) :=
  [("Electronics", "New gadget! 📱 Your electronics purchase has been logged. Enjoy your new device!"),
   ("Bills", "Payment noted! 🧾 I\x27ve recorded your bill payment. Keeping your expenses organized!"),
   ("Food", "Yum! 🍔 I\x27ve added your food expense to your tracker. Bon appétit!"),
   ("Transport", "On the move! 🚗 I\x27ve logged your transport expense. Safe travels!"),
   ("Miscellaneous", "Got it! 💰 Your expense has been recorded. Thanks for keeping track!")]

/-- `generate_fallback_message(category)`: dictionary lookup with default. -/
def generate_fallback_message (category : String) : String :=
  match fallback_messages.find? (fun p => p.1 = category) with
  | some p => p.2
  | none => "Added to expenses! 💰"

/-- `fallback_analysis(prompt)`: deterministic Amount Parser + Category
Classifier.  The amount slot renders `format_inr(amount) if amount else
"???"`, so an extracted `0.0` (falsy) also yields the sentinel. -/
def fallback_analysis (prompt : String) : Analysis :=
  let amount := extract_inr_amount prompt
  let category := determine_fallback_category prompt
  { amount := match amount with
      | some a => if a = 0 then none else some a
      | none => none
    category := category
    message := generate_fallback_message category }

/-- The message slot of `parse_gemini_response`:
`data.get('message', 'Added to expenses! 💰')`.  A non-string JSON value
would be stored as-is and only ever rendered through `str()`; it is
collapsed to the default here since no downstream logic inspects it. -/
def jmessageOf : Option JVal → String
  | some (.jstr s) => s
  | _ => "Added to expenses! 💰"

/-- `parse_gemini_response(response_text, original_prompt)`: extract the
greedy brace span, `json.loads` it (the `loads` capability; `none` models
a raised `JSONDecodeError`), require `amount` and `category` keys, then
normalise.  `.title()` on a non-string category raises `AttributeError`,
which the enclosing `except` turns into the fallback as well. -/
def parse_gemini_response (loads : String → Option JObj)
    (response_text prompt : String) : Analysis :=
  match findJsonSpan response_text.data with
  | none => fallback_analysis prompt
  | some span =>
    match loads (String.mk span) with
    | none => fallback_analysis prompt
    | some data =>
      match data.amount, data.category with
      | some av, some (.jstr cat) =>
        { amount := format_inr_val av
          category := pyTitle cat
          message := jmessageOf data.message }
      | some _, some _ => fallback_analysis prompt
      | _, _ => fallback_analysis prompt

/-- The re-extraction step of `analyze_expense`: `amount =
extract_inr_amount(prompt); if amount: parsed_result['amount'] =
format_inr(amount)` — note `0.0` is falsy, so a zero extraction does not
overwrite. -/
def reExtractAmount (parsed : Analysis) (prompt : String) : Analysis :=
  match extract_inr_amount prompt with
  | some a2 => if a2 = 0 then parsed else { parsed with amount := some a2 }
  | none => parsed

/-- The amount re-validation block of `analyze_expense`.  When the parsed
amount is the sentinel the guard `parsed_result.get('amount') and ... !=
"???"` skips the block.  Otherwise `float(parsed_result['amount'])` is
attempted on the rendered string: for |amount| ≥ 1000 the rendering is
comma-grouped and `float` raises, landing in the bare `except` that
re-extracts; a parsed amount ≤ 0 re-extracts too; otherwise the result is
kept. -/
def revalidateAmount (parsed : Analysis) (prompt : String) : Analysis :=
  match parsed.amount with
  | none => parsed
  | some a =>
    if (1000 : Q) ≤ a ∨ a ≤ Q.ofInt (-1000) then reExtractAmount parsed prompt
    else if a ≤ 0 then reExtractAmount parsed prompt
    else parsed

/-- Outcome of one `requests.post` call to the classifier, after the
response-JSON navigation (`candidates[0].content.parts[0].text`, which
never raises thanks to the chained defaults).  The three error
constructors are the exceptions `requests` can raise: connection error,
timeout (`timeout=10`), and `raise_for_status` on a non-2xx reply. -/
inductive CallOutcome where
  | networkError
  | timeoutError
  | httpError
  | ok (response_text : String)
deriving DecidableEq, Repr

/-- `analyze_expense(prompt)`: call the classifier; any raised exception
lands in the `except` that returns `fallback_analysis`; a 2xx response is
parsed and its amount re-validated. -/
def analyze_expense (call : CallOutcome) (loads : String → Option JObj)
    (prompt : String) : Analysis :=
  match call with
  | .ok response_text =>
    revalidateAmount (parse_gemini_response loads response_text prompt) prompt
  | _ => fallback_analysis prompt

/-- One DynamoDB item of the single shared table.  `message_id` is the key
attribute; all other attributes are optional (`none` = attribute absent),
since `ProcessedMessage` markers and `EXPENSE` records coexist in the
table with different shapes.  `type` is spelled `rtype`. -/
structure Item where
  message_id : String
  processed_at : Option String := none
  username : Option String := none
  rtype : Option String := none
  timestamp : Option String := none
  amount : Option Q := none
  category : Option String := none
  description : Option String := none
deriving DecidableEq, Repr

/-- `dynamodb.put_item`: upsert by key. -/
def put_item (table : List Item) (item : Item) : List Item :=
  item :: table.filter (fun r => r.message_id ≠ item.message_id)

/-- `dynamodb.delete_item`: idempotent delete by key. -/
def delete_item (table : List Item) (key : String) : List Item :=
  table.filter (fun r => r.message_id ≠ key)

/-- `check_if_processed(message_id)`: consistent-read key lookup of the
`MSG#`-namespaced marker. -/
def check_if_processed (table : List Item) (mid : String) : Bool :=
  table.any (fun r => r.message_id = "MSG#" ++ mid)

/-- `mark_as_processed(message_id)`: write the idempotency marker. -/
def mark_as_processed (table : List Item) (mid nowIso : String) : List Item :=
  put_item table { message_id := "MSG#" ++ mid, processed_at := some nowIso }

/-- `store_user_expense(username, analysis, original_text)`:
`float(analysis['amount'].replace(',', ''))` raises on the "???" sentinel
(`ValueError` caught, nothing written); a non-positive amount is skipped;
otherwise the expense item is written under key
`EXP#<user>#<isoTimestamp>`. -/
def store_user_expense (table : List Item) (username : String)
    (analysis : Analysis) (original_text nowIso : String) : List Item :=
  match analysis.amount with
  | none => table
  | some amount =>
    if amount ≤ 0 then table
    else
      put_item table
        { message_id := "EXP#" ++ username ++ "#" ++ nowIso
          username := some username
          rtype := some "EXPENSE"
          timestamp := some nowIso
          amount := some amount
          category := some analysis.category
          description := some original_text }

/-- The transient `deletion_confirmations` entry for one user. -/
structure Scope where
  days : JVal
  description : String
  count : JVal
  position : JVal
deriving DecidableEq, Repr

/-- A pending deletion session (`deletion_confirmations[username]`). -/
structure Session where
  confirmation_code : String
  time_range : Scope
  expenses_to_delete : List String
  chat_id : Int
  expense_count : Nat
  expires_at : Q
deriving DecidableEq, Repr

/-- The process-wide `deletion_confirmations` dict, user keyed. -/
abbrev Sessions := List (String × Session)

/-- Dict lookup. -/
def getSession (m : Sessions) (u : String) : Option Session :=
  (m.find? (fun p => p.1 = u)).map (fun p => p.2)

/-- `del deletion_confirmations[u]`. -/
def delSession (m : Sessions) (u : String) : Sessions :=
  m.filter (fun p => p.1 ≠ u)

/-- `deletion_confirmations[u] = s`. -/
def setSession (m : Sessions) (u : String) (s : Session) : Sessions :=
  (u, s) :: delSession m u

/-- Lexicographic less-or-equal on character lists, by code point — the
order Python string comparison and the DynamoDB string comparator both
use (identically, for the ASCII ISO-8601 timestamps involved). -/
def lexLe : List Char → List Char → Bool
  | [], _ => true
  | _ :: _, [] => false
  | a :: as, b :: bs => if a = b then lexLe as bs else decide (a.toNat < b.toNat)

/-- Lexicographic less-or-equal on strings. -/
def pyStrLe (s t : String) : Bool := lexLe s.data t.data

/-- Scan filter `username = :u AND #type = :t` (a missing attribute fails
any comparison). -/
def get_all_user_expenses (table : List Item) (username : String) : List Item :=
  table.filter (fun r => r.username == some username && r.rtype == some "EXPENSE")

/-- Scan filter of `get_user_expenses_for_deletion`: additionally
`#ts >= :st` (no positive-amount condition here, unlike the query scan). -/
def get_user_expenses_for_deletion (table : List Item) (username start_time : String) :
    List Item :=
  table.filter (fun r =>
    r.username == some username && r.rtype == some "EXPENSE" &&
    (match r.timestamp with
     | some t => pyStrLe start_time t
     | none => false))

/-- Numeric reading of a JSON value where Python would coerce
(`timedelta(days=v)`, arithmetic): ints, floats and bools work, anything
else raises. -/
def jnumOf : JVal → Option Q
  | .jint n => some (Q.ofInt n)
  | .jnum q => some q
  | .jbool b => some (if b then 1 else 0)
  | _ => none

/-- The query scan of `get_user_expenses`: same filter plus
`#amount > :zero`; a non-numeric `days` makes the `timedelta` raise inside
the surrounding `try`, which returns `[]`. -/
def get_user_expenses (isoDaysAgo : Q → String) (table : List Item)
    (username : String) (days : JVal) : List Item :=
  match jnumOf days with
  | some d =>
    let start_time := isoDaysAgo d
    table.filter (fun r =>
      r.username == some username && r.rtype == some "EXPENSE" &&
      (match r.timestamp with
       | some t => pyStrLe start_time t
       | none => false) &&
      (match r.amount with
       | some a => decide ((0 : Q) < a)
       | none => false))
  | none => []

/-- `delete_specific_expenses(expense_ids)`: delete each id (idempotent),
reporting `len(expense_ids)` regardless of which keys still existed. -/
def delete_specific_expenses (table : List Item) (ids : List String) :
    List Item × Nat :=
  (ids.foldl (fun t mid => delete_item t mid) table, ids.length)

/-- Replies sent through `send_telegram_reply`, abstracted to their
constructor; each constructor stands for the corresponding literal
message text of the source. -/
inductive Reply where
  | deletionPrompt (count : Nat) (code : String) (total : Q) (description : String)
  | nothingToDelete
  | deletionError
  | deletionSuccess (count : Nat) (description : String)
  | deletionCancelled
  | noPendingDeletion
  | querySummary (expenses : List Item) (days : JVal) (description : String) (limit : JVal)
  | expenseStored (amount : Q) (category : String) (message : String)
  | helpMessage
deriving DecidableEq, Repr

/-- `float(exp['amount']['N'])` summed over the candidate list (the
missing-attribute case is guarded separately where it matters). -/
def totalAmount (expenses : List Item) : Q :=
  expenses.foldl (fun acc r => acc + r.amount.getD 0) 0

/-- Sort key `lambda x: x['timestamp']['S']`. -/
def tsKey (r : Item) : String := r.timestamp.getD ""

/-- Ascending timestamp order (`sorted(..., reverse=False)`). -/
def tsAsc (a b : Item) : Prop := pyStrLe (tsKey a) (tsKey b) = true

instance : DecidableRel tsAsc :=
  fun a b => inferInstanceAs (Decidable (pyStrLe (tsKey a) (tsKey b) = true))

/-- Descending timestamp order (`sorted(..., reverse=True)`). -/
def tsDesc (a b : Item) : Prop := pyStrLe (tsKey b) (tsKey a) = true

instance : DecidableRel tsDesc :=
  fun a b => inferInstanceAs (Decidable (pyStrLe (tsKey b) (tsKey a) = true))

/-- Python `l[:n]` for an integer bound (negative bounds drop from the
end). -/
def pySliceTo (l : List Item) (n : Int) : List Item :=
  if 0 ≤ n then l.take n.toNat
  else l.take (l.length - (-n).toNat)

/-- Default scope returned by `extract_deletion_time_range` when the call
or the JSON span fails: delete all. -/
def deletionScopeDefault : Scope :=
  { days := .jnull, description := "all expenses", count := .jnull, position := .jnull }

/-- The `description` slot: a JSON string is kept; the absent-key default
applies otherwise (a non-string value is display-only and collapsed to
the default here, since nothing downstream inspects it). -/
def jdescrOf : Option JVal → String → String
  | some (.jstr s), _ => s
  | some _, d => d
  | none, d => d

/-- `extract_deletion_time_range(text)`: ask the classifier for
`{days, description, count, position}`; any failure (call exception, no
JSON span, parse error) yields the delete-all default.  Every key of the
result dict is populated (possibly with `None`), which is exactly what
`.getD .jnull` on the object fields expresses. -/
def extract_deletion_time_range (call : CallOutcome)
    (loads : String → Option JObj) : Scope :=
  match call with
  | .ok response_text =>
    match findJsonSpan response_text.data with
    | some span =>
      match loads (String.mk span) with
      | some tr =>
        { days := tr.days.getD .jnull
          description := jdescrOf tr.description "specified expenses"
          count := tr.count.getD .jnull
          position := tr.position.getD .jnull }
      | none => deletionScopeDefault
    | none => deletionScopeDefault
  | _ => deletionScopeDefault

/-- Default query scope (`{"days": 30, "description": "recent expenses",
"limit": None}`). -/
def queryScopeDefault : JVal × String × JVal :=
  (.jint 30, "recent expenses", .jnull)

/-- `extract_time_range_from_query(query)`: `{days, description, limit}`
with `days` defaulting to 30 only when the key is absent. -/
def extract_time_range_from_query (call : CallOutcome)
    (loads : String → Option JObj) : JVal × String × JVal :=
  match call with
  | .ok response_text =>
    match findJsonSpan response_text.data with
    | some span =>
      match loads (String.mk span) with
      | some tr =>
        (tr.days.getD (.jint 30), jdescrOf tr.description "recent expenses",
         tr.limit.getD .jnull)
      | none => queryScopeDefault
    | none => queryScopeDefault
  | _ => queryScopeDefault

/-- Tail of `handle_deletion_request` once the candidate list is known:
empty list replies and leaves the sessions untouched; otherwise the
session (code, scope snapshot, candidate-id snapshot, expiry `now+300`)
is stored FIRST, and only then the prompt total is computed — so a
missing amount attribute raising `KeyError` still leaves the fresh
session behind while the `except` sends the error reply. -/
def finishDeletionRequest (uuid8 : String) (now : Q) (sessions : Sessions)
    (chat_id : Int) (username : String) (scope : Scope) (expenses : List Item) :
    Sessions × List Reply :=
  if expenses.length = 0 then (sessions, [.nothingToDelete])
  else
    let sess : Session :=
      { confirmation_code := uuid8
        time_range := scope
        expenses_to_delete := expenses.map (fun r => r.message_id)
        chat_id := chat_id
        expense_count := expenses.length
        expires_at := now + 300 }
    let sessions2 := setSession sessions username sess
    if expenses.any (fun r => r.amount.isNone) then (sessions2, [.deletionError])
    else (sessions2, [.deletionPrompt expenses.length uuid8 (totalAmount expenses) scope.description])

/-- `handle_deletion_request(chat_id, message_id, username, time_range)`.
With a non-null `count`: fetch all the user expenses, sort by timestamp —
note `time_range.get("position", "last")` never applies its default
because the scope dict always carries the `position` key, so a null
position compares unequal to `"last"` and lands in the ascending branch —
slice `min(count, len)`, then hand over to the session-creating tail.
With a non-null `days`: filtered fetch since the window start.  Otherwise
all expenses.  A candidate lacking the timestamp attribute makes the sort
key raise (caught: error reply); a non-integer count makes `min`/slicing
raise likewise. -/
def handle_deletion_request (uuid8 : String) (now : Q) (isoDaysAgo : Q → String)
    (table : List Item) (sessions : Sessions) (chat_id : Int) (username : String)
    (scope : Scope) : Sessions × List Reply :=
  if scope.count ≠ .jnull then
    let all := get_all_user_expenses table username
    if all.any (fun r => r.timestamp.isNone) then (sessions, [.deletionError])
    else
      let position := scope.position
      let sortedE :=
        if position = .jstr "last" then List.insertionSort tsDesc all
        else List.insertionSort tsAsc all
      match scope.count with
      | .jint n =>
        finishDeletionRequest uuid8 now sessions chat_id username scope
          (pySliceTo sortedE (min n (sortedE.length : Int)))
      | .jbool b =>
        finishDeletionRequest uuid8 now sessions chat_id username scope
          (pySliceTo sortedE (min (if b then 1 else 0) (sortedE.length : Int)))
      | _ => (sessions, [.deletionError])
  else if scope.days ≠ .jnull then
    match jnumOf scope.days with
    | some d =>
      finishDeletionRequest uuid8 now sessions chat_id username scope
        (get_user_expenses_for_deletion table username (isoDaysAgo d))
    | none => (sessions, [.deletionError])
  else
    finishDeletionRequest uuid8 now sessions chat_id username scope
      (get_all_user_expenses table username)

/-- `handle_deletion_confirmation(chat_id, message_id, username, text)`:
no session → "no pending requests" reply; `"cancel"` → discard and
cancellation reply; otherwise delete the snapshotted ids.  Every session
this program stores carries `expenses_to_delete`, so the `days` /
delete-all fallback branches of the source are unreachable. -/
def handle_deletion_confirmation (table : List Item) (sessions : Sessions)
    (username text : String) : List Item × Sessions × List Reply :=
  match getSession sessions username with
  | none => (table, sessions, [.noPendingDeletion])
  | some conf =>
    if pyLower text = "cancel" then
      (table, delSession sessions username, [.deletionCancelled])
    else
      let r := delete_specific_expenses table conf.expenses_to_delete
      (r.1, delSession sessions username,
       [.deletionSuccess r.2 conf.time_range.description])

/-- `\w` of the lowered text (ASCII approximation of the `re` word
class). -/
def isWordChar (c : Char) : Bool := c.isAlphanum || c = '_'

/-- Strip an exact prefix. -/
def dropPrefixCh : List Char → List Char → Option (List Char)
  | [], l => some l
  | _ :: _, [] => none
  | a :: as, b :: bs => if a = b then dropPrefixCh as bs else none

/-- `re.match(r'confirm\s+(\w+)', text_lower)`: anchored prefix match,
one-or-more whitespace, then the greedy word-character group. -/
def confirmCodeOf (tl : String) : Option String :=
  match dropPrefixCh "confirm".data tl.data with
  | none => none
  | some rest =>
    if (rest.takeWhile isPySpace).isEmpty then none
    else
      let r2 := rest.dropWhile isPySpace
      let code := r2.takeWhile isWordChar
      if code.isEmpty then none else some (String.mk code)

/-- `is_deletion_confirmation(username, text)`: mutates the session map
(lazy expiry removal; `"cancel"` also removes it here, before the handler
runs) and reports whether the confirmation/cancellation lane applies. -/
def is_deletion_confirmation (sessions : Sessions) (username text : String)
    (now : Q) : Bool × Sessions :=
  match getSession sessions username with
  | none => (false, sessions)
  | some conf =>
    if conf.expires_at < now then (false, delSession sessions username)
    else
      let tl := pyLower text
      if tl = "cancel" then (true, delSession sessions username)
      else
        match confirmCodeOf tl with
        | some code => (code == conf.confirmation_code, sessions)
        | none => (false, sessions)

/-- Typo variants of "show" accepted by the query detector. -/
def show_variants : List String := ["show", "shwo", "shoq", "sho", "sbow"]

/-- `is_expense_query(text)`. -/
def is_expense_query (text : String) : Bool :=
  let tl := pyLower text
  if show_variants.any (fun v =>
      pyIn (v ++ " my expenses") tl || pyIn (v ++ " expenses") tl ||
      pyIn (v ++ " my transactions") tl) then true
  else if (["my expenses", "what did i spend", "how much did i spend",
            "total expenses", "expense report", "spending summary"] :
            List String).any (fun q => pyIn q tl) then true
  else
    (["show", "shwo", "list", "display", "tell me", "what", "how much",
      "total", "summary", "report", "analysis", "breakdown"] :
      List String).any (fun k => pyIn k tl) &&
    (["expense", "spent", "spend", "cost", "payment"] :
      List String).any (fun t => pyIn t tl)

/-- `is_deletion_request(text)`: a deletion verb and a target noun. -/
def is_deletion_request (text : String) : Bool :=
  let tl := pyLower text
  (["delete", "remove", "erase", "clear", "clean", "wipe", "purge"] :
    List String).any (fun k => pyIn k tl) &&
  (["expense", "expenses", "history", "data", "records", "transactions"] :
    List String).any (fun p => pyIn p tl)

/-- The entry-lane guard
`re.search(r'(?:show|display|list|my expenses|total)', text.lower())`. -/
def entryBlocked (text : String) : Bool :=
  let tl := pyLower text
  pyIn "show" tl || pyIn "display" tl || pyIn "list" tl ||
  pyIn "my expenses" tl || pyIn "total" tl

/-- The external capabilities of one invocation: the three classifier
calls, the `json.loads` library, `str(uuid.uuid4())[:8]`, `time.time()`,
`datetime.utcnow().isoformat()`, and the ISO rendering of `utcnow -
timedelta(days=d)`. -/
structure Env where
  expenseCall : CallOutcome
  deletionScopeCall : CallOutcome
  queryScopeCall : CallOutcome
  jsonLoads : String → Option JObj
  uuid8 : String
  now : Q
  nowIso : String
  isoDaysAgo : Q → String

/-- The inbound Telegram message, after JSON navigation: `chat.id`,
`from.username`, `text` (default `""`), `message_id` (already
stringified when present). -/
structure Msg where
  chat_id : Option Int
  from_username : Option String
  text : String
  message_id : Option String

/-- Python `str(x)` on the optional chat id (`str(None)` is `"None"`). -/
def pyStrOfOptInt : Option Int → String
  | none => "None"
  | some n => toString n

/-- `str(message.get("message_id"))`: a missing id stringifies to the
truthy `"None"`. -/
def midStr (m : Msg) : String := m.message_id.getD "None"

/-- `message.get("from", {}).get("username", str(chat_id))`. -/
def userOf (m : Msg) : String := m.from_username.getD (pyStrOfOptInt m.chat_id)

/-- Python truthiness of the chat id: `None` and `0` are falsy. -/
def chatTruthy : Option Int → Bool
  | none => false
  | some n => n ≠ 0

/-- Result of one `lambda_handler` invocation: the table and session map
after the call, the HTTP status and body, and the replies sent. -/
structure HandlerOut where
  table : List Item
  sessions : Sessions
  status : Nat
  body : String
  replies : List Reply
deriving DecidableEq, Repr

/-- `lambda_handler(event, context)`: validate, idempotency check, mark
processed, then route in order — deletion confirmation, deletion
request, expense query, expense entry (guarded by the keyword regex),
help fallback. -/
def lambda_handler (env : Env) (table : List Item) (sessions : Sessions)
    (msg : Msg) : HandlerOut :=
  let username := userOf msg
  let text := pyStripStr msg.text
  let mid := midStr msg
  if !chatTruthy msg.chat_id || text = "" then
    ⟨table, sessions, 400, "Invalid request", []⟩
  else if check_if_processed table mid then
    ⟨table, sessions, 200, "Already processed", []⟩
  else
    let table1 := mark_as_processed table mid env.nowIso
    let c := is_deletion_confirmation sessions username text env.now
    if c.1 then
      let r := handle_deletion_confirmation table1 c.2 username text
      ⟨r.1, r.2.1, 200, "Deletion confirmation processed", r.2.2⟩
    else if is_deletion_request text then
      let scope := extract_deletion_time_range env.deletionScopeCall env.jsonLoads
      let dr := handle_deletion_request env.uuid8 env.now env.isoDaysAgo table1 c.2
        (msg.chat_id.getD 0) username scope
      ⟨table1, dr.1, 200, "Deletion request processed", dr.2⟩
    else if is_expense_query text then
      let qs := extract_time_range_from_query env.queryScopeCall env.jsonLoads
      let expenses := get_user_expenses env.isoDaysAgo table1 username qs.1
      ⟨table1, c.2, 200, "Expense query processed",
        [.querySummary expenses qs.1 qs.2.1 qs.2.2]⟩
    else if !entryBlocked text then
      let analysis := analyze_expense env.expenseCall env.jsonLoads text
      match analysis.amount with
      | some amount =>
        if 0 < amount then
          ⟨store_user_expense table1 username analysis text env.nowIso, c.2, 200,
            "Expense processed",
            [.expenseStored amount analysis.category analysis.message]⟩
        else ⟨table1, c.2, 200, "Instructions sent", [.helpMessage]⟩
      | none => ⟨table1, c.2, 200, "Instructions sent", [.helpMessage]⟩
    else ⟨table1, c.2, 200, "Instructions sent", [.helpMessage]⟩


/-- The unit tokens of the amount regex with their documented multipliers
(k/thousand ×1,000; l/lakh/lakhs ×100,000; cr/crore/crores ×10,000,000). -/
def unitTable : List (List Char × Q) :=
  [("k".data, 1000), ("thousand".data, 1000), ("l".data, 100000),
   ("lakh".data, 100000), ("lakhs".data, 100000),
   ("cr".data, 10000000), ("crore".data, 10000000), ("crores".data, 10000000)]

/-- The candidate list of a count-scoped deletion request sorted oldest
first, as `handle_deletion_request` computes it for `position="first"`. -/
def requestCandidatesAsc (table : List Item) (username : String) : List Item :=
  List.insertionSort tsAsc (get_all_user_expenses table username)

/-- The snapshot of candidate ids captured for `count=2,
position="first"`: the two oldest records by timestamp. -/
def oldestTwoSnapshot (table : List Item) (username : String) : List String :=
  ((requestCandidatesAsc table username).take 2).map (fun r => r.message_id)

/-- The ExpenseRecord amount invariant: every EXPENSE item in the table
carries a positive amount. -/
def AmountInv (table : List Item) : Prop :=
  ∀ r ∈ table, r.rtype = some "EXPENSE" → ∀ a, r.amount = some a → 0 < a

/-- Concrete expense fixtures for the evaluation theorems. -/
def exA1 : Item :=
  { message_id := "EXP#alice#2024-01-01T10:00:00"
    username := some "alice"
    rtype := some "EXPENSE"
    timestamp := some "2024-01-01T10:00:00"
    amount := some 100
    category := some "Food"
    description := some "d1" }

/-- Second fixture expense. -/
def exA2 : Item :=
  { message_id := "EXP#alice#2024-01-02T10:00:00"
    username := some "alice"
    rtype := some "EXPENSE"
    timestamp := some "2024-01-02T10:00:00"
    amount := some 200
    category := some "Food"
    description := some "d2" }

/-- Third fixture expense. -/
def exA3 : Item :=
  { message_id := "EXP#alice#2024-01-03T10:00:00"
    username := some "alice"
    rtype := some "EXPENSE"
    timestamp := some "2024-01-03T10:00:00"
    amount := some 300
    category := some "Food"
    description := some "d3" }

/-- Fixture table (scan order deliberately not chronological). -/
def tblA : List Item := [exA2, exA1, exA3]

/-- Fixture clock rendering. -/
def isoF : Q → String := fun _ => "1970-01-01T00:00:00"

/-- Deletion scope with a count and a null position, as the extractor
returns when the classifier reports `position: null`. -/
def scNull : Scope :=
  { days := .jnull, description := "last 2 expenses", count := .jint 2, position := .jnull }

/-- Deletion scope `count=2, position="first"`. -/
def scFirst : Scope :=
  { days := .jnull, description := "first 2 expenses", count := .jint 2, position := .jstr "first" }

/-- The pending session produced by a `count=2, position="first"` request
over `tblA` at time 1000 with code `abcd1234`. -/
def sessW : Session :=
  { confirmation_code := "abcd1234"
    time_range := scFirst
    expenses_to_delete := ["EXP#alice#2024-01-01T10:00:00", "EXP#alice#2024-01-02T10:00:00"]
    chat_id := 7
    expense_count := 2
    expires_at := 1300 }

/-- Fixture environment: classifier unreachable, clock at 1100 (before
the session expiry at 1300). -/
def envA : Env :=
  { expenseCall := .networkError
    deletionScopeCall := .networkError
    queryScopeCall := .networkError
    jsonLoads := fun _ => none
    uuid8 := "beef0000"
    now := 1100
    nowIso := "2024-01-04T00:00:00"
    isoDaysAgo := isoF }

/-- Same environment with the clock past the expiry. -/
def envLate : Env := { envA with now := 2000 }

/-- Fixture messages. -/
def msgCancel : Msg :=
  { chat_id := some 7, from_username := some "alice", text := "cancel", message_id := some "555" }

/-- A confirmation attempt with a wrong code. -/
def msgWrong : Msg :=
  { chat_id := some 7, from_username := some "alice", text := "confirm zzzz", message_id := some "557" }

/-- A plain expense entry message. -/
def msgSpend : Msg :=
  { chat_id := some 7, from_username := some "alice", text := "spent 500 on dinner", message_id := some "558" }

/-- A message with no `message_id` field. -/
def msgNoId1 : Msg :=
  { chat_id := some 7, from_username := some "alice", text := "taxi 300", message_id := none }

/-- Another user and chat, also with no `message_id`. -/
def msgNoId2 : Msg :=
  { chat_id := some 8, from_username := some "bob", text := "spent 500 on dinner", message_id := none }

/-- The idempotency marker written for `msgCancel`. -/
def mk555 : Item := { message_id := "MSG#555", processed_at := some "2024-01-04T00:00:00" }

/-- An opening brace character (kept out of string literals). -/
def obr : Char := Char.ofNat 123

/-- A closing brace character. -/
def cbr : Char := Char.ofNat 125

/-- A classifier response containing a JSON span whose parse fails. -/
def rtSpan : String := String.mk [obr, 'x', cbr]

/-- A JSON object missing the `amount` key. -/
def objMissing : JObj := { category := some (.jstr "Food") }

/-- A `json.loads` capability that always fails. -/
def loadsNone : String → Option JObj := fun _ => none

/-- A `json.loads` capability returning the incomplete object. -/
def loadsMissing : String → Option JObj := fun _ => some objMissing

end BudgetBot

namespace BudgetBot

lemma lowerChar_nondigit {c : Char} (h : c.isDigit = false) :
    (lowerChar c).isDigit = false := by
  unfold lowerChar
  split <;> first | decide | exact h

lemma takeWhile_append_all {q : Char → Bool} {l₁ l₂ : List Char}
    (h : ∀ c ∈ l₁, q c = true) :
    (l₁ ++ l₂).takeWhile q = l₁ ++ l₂.takeWhile q := by
  induction l₁ with
  | nil => simp
  | cons a as ih => simp_all [List.takeWhile_cons]

lemma dropWhile_append_all {q : Char → Bool} {l₁ l₂ : List Char}
    (h : ∀ c ∈ l₁, q c = true) :
    (l₁ ++ l₂).dropWhile q = l₂.dropWhile q := by
  induction l₁ with
  | nil => simp
  | cons a as ih => simp_all [List.dropWhile_cons]

lemma suffix_append_nodigit {p x : List Char} (hp : ∀ c ∈ p, c.isDigit = false) :
    suffixFromFirstDigit (p ++ x) = suffixFromFirstDigit x := by
  induction p with
  | nil => rfl
  | cons a as ih => simp_all [suffixFromFirstDigit]

lemma suffix_nodigit {l : List Char} (h : ∀ c ∈ l, c.isDigit = false) :
    suffixFromFirstDigit l = none := by
  induction l with
  | nil => rfl
  | cons a as ih => simp_all [suffixFromFirstDigit]

lemma isDigit_not_pySpace {c : Char} (h : c.isDigit = true) : isPySpace c = false := by
  simp only [Char.isDigit] at h
  simp only [isPySpace, Bool.or_eq_false_iff, decide_eq_false_iff_not]
  refine ⟨⟨⟨⟨⟨?_, ?_⟩, ?_⟩, ?_⟩, ?_⟩, ?_⟩ <;> rintro rfl <;> simp_all

lemma parseNumberAt_digits {d rest : List Char} (hd : ∀ c ∈ d, c.isDigit = true)
    (hrest : rest = [] ∨ ∃ c rest', rest = c :: rest' ∧ c.isDigit = false ∧ c ≠ '.') :
    parseNumberAt (d ++ rest) = (Q.ofInt (digitsVal d), rest) := by
  have ht : (d ++ rest).takeWhile Char.isDigit = d := by
    rw [takeWhile_append_all hd]
    rcases hrest with rfl | ⟨c, rest', rfl, hc, _⟩
    · simp
    · simp [List.takeWhile_cons, hc]
  have hdp : (d ++ rest).dropWhile Char.isDigit = rest := by
    rw [dropWhile_append_all hd]
    rcases hrest with rfl | ⟨c, rest', rfl, hc, _⟩
    · simp
    · simp [List.dropWhile_cons, hc]
  unfold parseNumberAt
  rw [ht, hdp]
  rcases hrest with rfl | ⟨c, rest', rfl, hc, hdot⟩
  · rfl
  · cases hcc : c <;> simp_all

lemma unit_facts {u : List Char} {mu : Q} (hu : (u, mu) ∈ unitTable) :
    u ≠ [] ∧ (∀ c ∈ u, isPySpace c = false ∧ c.isDigit = false ∧ c ≠ '.' ∧ lowerChar c = c ∧ c ≠ ',') := by
  simp only [unitTable, List.mem_cons, List.not_mem_nil, or_false, Prod.mk.injEq] at hu
  rcases hu with h | h | h | h | h | h | h | h <;> obtain ⟨rfl, rfl⟩ := h <;>
    exact ⟨by decide, by decide⟩

lemma extractCore_unit (p d w u s : List Char) (mu : Q)
    (hp : ∀ c ∈ p, c.isDigit = false)
    (hd0 : d ≠ []) (hd : ∀ c ∈ d, c.isDigit = true)
    (hw : ∀ c ∈ w, isPySpace c = true)
    (hu : (u, mu) ∈ unitTable) :
    extractCore (p ++ d ++ w ++ u ++ s) = some (Q.ofInt (digitsVal d) * mu) := by
  obtain ⟨c0, d', rfl⟩ := List.exists_cons_of_ne_nil hd0
  have hc0 : c0.isDigit = true := hd c0 (by simp)
  -- the leftmost regex match starts at the first digit
  have h1 : suffixFromFirstDigit (p ++ (c0 :: d') ++ w ++ u ++ s) =
      some ((c0 :: d') ++ (w ++ u ++ s)) := by
    have := suffix_append_nodigit (x := (c0 :: d') ++ w ++ u ++ s) hp
    simp only [List.append_assoc] at this ⊢
    rw [this]
    simp [suffixFromFirstDigit, hc0]
  -- the tail after the digits starts with a space or the unit head
  have hrest : (w ++ u ++ s) = [] ∨
      ∃ c rest', (w ++ u ++ s) = c :: rest' ∧ c.isDigit = false ∧ c ≠ '.' := by
    right
    obtain ⟨hu0, hu2⟩ := unit_facts hu
    cases hw' : w with
    | nil =>
      obtain ⟨cu, ur, rfl⟩ := List.exists_cons_of_ne_nil hu0
      exact ⟨cu, ur ++ s, by simp, (hu2 cu (by simp)).2.1, (hu2 cu (by simp)).2.2.1⟩
    | cons cw wr =>
      refine ⟨cw, wr ++ u ++ s, by simp, ?_, ?_⟩
      · have hsp := hw cw (by simp [hw'])
        cases hdig : cw.isDigit
        · rfl
        · rw [isDigit_not_pySpace hdig] at hsp; cases hsp
      · have hsp := hw cw (by simp [hw'])
        rintro rfl
        simp [isPySpace] at hsp
  have h2 : parseNumberAt ((c0 :: d') ++ (w ++ u ++ s)) =
      (Q.ofInt (digitsVal (c0 :: d')), w ++ u ++ s) := parseNumberAt_digits hd hrest
  -- whitespace is skipped up to the unit token
  have h3 : (w ++ u ++ s).dropWhile isPySpace = u ++ s := by
    obtain ⟨hu0, hu2⟩ := unit_facts hu
    obtain ⟨cu, ur, rfl⟩ := List.exists_cons_of_ne_nil hu0
    rw [List.append_assoc, dropWhile_append_all hw]
    simp [List.dropWhile_cons, (hu2 cu (by simp)).1]
  unfold extractCore
  rw [h1]
  simp only [h2, h3]
  -- per-unit evaluation of the ordered alternation and the dispatch
  simp only [unitTable, List.mem_cons, List.not_mem_nil, or_false, Prod.mk.injEq] at hu
  rcases hu with h | h | h | h | h | h | h | h <;> obtain ⟨rfl, rfl⟩ := h <;>
    simp [multiplierToken, List.isPrefixOf, applyMultiplier]

lemma lowerChar_digit {c : Char} (h : c.isDigit = true) : lowerChar c = c := by
  unfold lowerChar
  split <;> first | rfl | (exfalso; simp_all)

lemma isPySpace_lowerChar {c : Char} (h : isPySpace c = true) : lowerChar c = c := by
  simp only [isPySpace, Bool.or_eq_true, decide_eq_true_eq] at h
  rcases h with ((((rfl | rfl) | rfl) | rfl) | rfl) | rfl <;> rfl

lemma isPySpace_not_comma {c : Char} (h : isPySpace c = true) : c ≠ ',' := by
  simp only [isPySpace, Bool.or_eq_true, decide_eq_true_eq] at h
  rcases h with ((((rfl | rfl) | rfl) | rfl) | rfl) | rfl <;> decide

lemma isDigit_not_comma {c : Char} (h : c.isDigit = true) : c ≠ ',' := by
  rintro rfl; simp at h

lemma map_lowerChar_eq_self {x : List Char} (h : ∀ c ∈ x, lowerChar c = c) :
    x.map lowerChar = x := by
  induction x with
  | nil => rfl
  | cons a as ih =>
    simp only [List.map_cons, List.cons.injEq]
    exact ⟨h a (by simp), ih (fun c hc => h c (by simp [hc]))⟩

lemma normalizeAmountText_clean {x : List Char}
    (h : ∀ c ∈ x, lowerChar c = c ∧ c ≠ ',') :
    normalizeAmountText (String.mk x) = pyStrip x := by
  unfold normalizeAmountText pyLowerList stripCommas
  have hdata : (String.mk x).data = x := rfl
  rw [hdata]
  have h1 : List.filter (fun c => decide (c ≠ ',')) x = x := by
    rw [List.filter_eq_self]; intro a ha; simpa using (h a ha).2
  rw [h1, map_lowerChar_eq_self (fun c hc => (h c hc).1)]

lemma dropWhile_append_keep {x y : List Char} (hx : x.dropWhile isPySpace = x)
    (hx0 : x ≠ []) : (x ++ y).dropWhile isPySpace = x ++ y := by
  rw [List.dropWhile_append, hx]
  cases x with
  | nil => exact absurd rfl hx0
  | cons a as => simp

lemma pyStrip_decomp (p d w u s : List Char)
    (hd0 : d ≠ []) (hd : ∀ c ∈ d, c.isDigit = true)
    (hu0 : u ≠ []) (hu2 : ∀ c ∈ u, isPySpace c = false)
    (hp : ∀ c ∈ p, c.isDigit = false) :
    ∃ p2 s2, pyStrip (p ++ d ++ w ++ u ++ s) = p2 ++ d ++ w ++ u ++ s2 ∧
      (∀ c ∈ p2, c.isDigit = false) := by
  obtain ⟨c0, d2, rfl⟩ := List.exists_cons_of_ne_nil hd0
  obtain ⟨cl, ul, hul⟩ := List.exists_cons_of_ne_nil (List.reverse_ne_nil_iff.mpr hu0)
  have hc0 : isPySpace c0 = false := isDigit_not_pySpace (hd c0 (by simp))
  have hcl : isPySpace cl = false := by
    refine hu2 cl ?_
    have : cl ∈ u.reverse := by rw [hul]; simp
    simpa using this
  have hu_rev : u.reverse.dropWhile isPySpace = u.reverse := by
    rw [hul]
    simp [List.dropWhile_cons, hcl]
  have hu_rev0 : u.reverse ≠ [] := List.reverse_ne_nil_iff.mpr hu0
  unfold pyStrip
  have e1 : p ++ (c0 :: d2) ++ w ++ u ++ s = p ++ ((c0 :: d2) ++ (w ++ (u ++ s))) := by
    simp [List.append_assoc]
  rw [e1, List.dropWhile_append]
  have hmid : ((c0 :: d2) ++ (w ++ (u ++ s))).dropWhile isPySpace
      = (c0 :: d2) ++ (w ++ (u ++ s)) := by
    simp [List.dropWhile_cons, hc0]
  have hL : (if ((p.dropWhile isPySpace).isEmpty) = true
        then ((c0 :: d2) ++ (w ++ (u ++ s))).dropWhile isPySpace
        else p.dropWhile isPySpace ++ ((c0 :: d2) ++ (w ++ (u ++ s))))
      = (p.dropWhile isPySpace) ++ ((c0 :: d2) ++ (w ++ (u ++ s))) := by
    split
    · next hemp =>
      rw [List.isEmpty_iff] at hemp
      rw [hemp, hmid]
      simp
    · rfl
  rw [hL]
  have hp2 : ∀ c ∈ p.dropWhile isPySpace, c.isDigit = false :=
    fun c hc => hp c ((List.dropWhile_sublist isPySpace).mem hc)
  have e2 : (p.dropWhile isPySpace ++ ((c0 :: d2) ++ (w ++ (u ++ s)))).reverse
      = s.reverse ++ (u.reverse ++ (w.reverse ++ ((c0 :: d2).reverse ++ (p.dropWhile isPySpace).reverse))) := by
    simp [List.reverse_append, List.append_assoc]
  rw [e2, List.dropWhile_append]
  split
  · next hemp =>
    refine ⟨p.dropWhile isPySpace, [], ?_, hp2⟩
    rw [dropWhile_append_keep hu_rev hu_rev0]
    simp [List.reverse_append, List.append_assoc]
  · next hemp =>
    refine ⟨p.dropWhile isPySpace, (s.reverse.dropWhile isPySpace).reverse, ?_, hp2⟩
    simp [List.reverse_append, List.append_assoc]

lemma mem_pyStrip {c : Char} {l : List Char} (h : c ∈ pyStrip l) : c ∈ l := by
  unfold pyStrip at h
  rw [List.mem_reverse] at h
  have h2 := (List.dropWhile_sublist isPySpace).mem h
  rw [List.mem_reverse] at h2
  exact (List.dropWhile_sublist isPySpace).mem h2

lemma normalizeAmountText_nodigit {text : String}
    (h : ∀ c ∈ text.data, c.isDigit = false) :
    ∀ c ∈ normalizeAmountText text, c.isDigit = false := by
  intro c hc
  unfold normalizeAmountText pyLowerList stripCommas at hc
  have hc2 := mem_pyStrip hc
  rw [List.mem_map] at hc2
  obtain ⟨c2, hc2mem, rfl⟩ := hc2
  exact lowerChar_nondigit (h c2 (List.mem_of_mem_filter hc2mem))

/-- C7 statement body, proved as a helper so that C9 can reuse the unit
machinery without naming the C7 theorem. -/
lemma extract_inr_amount_unit (p d w u s : List Char) (mu : Q)
    (hp : ∀ c ∈ p, lowerChar c = c ∧ c ≠ ',' ∧ c.isDigit = false)
    (hd0 : d ≠ []) (hd : ∀ c ∈ d, c.isDigit = true)
    (hw : ∀ c ∈ w, isPySpace c = true)
    (hu : (u, mu) ∈ unitTable)
    (hs : ∀ c ∈ s, lowerChar c = c ∧ c ≠ ',') :
    extract_inr_amount (String.mk (p ++ d ++ w ++ u ++ s)) =
      some (Q.ofInt (digitsVal d) * mu) := by
  obtain ⟨hu0, hu2⟩ := unit_facts hu
  have hclean : ∀ c ∈ p ++ d ++ w ++ u ++ s, lowerChar c = c ∧ c ≠ ',' := by
    intro c hc
    simp only [List.append_assoc, List.mem_append] at hc
    rcases hc with hc | hc | hc | hc | hc
    · exact ⟨(hp c hc).1, (hp c hc).2.1⟩
    · exact ⟨lowerChar_digit (hd c hc), isDigit_not_comma (hd c hc)⟩
    · exact ⟨isPySpace_lowerChar (hw c hc), isPySpace_not_comma (hw c hc)⟩
    · exact ⟨(hu2 c hc).2.2.2.1, (hu2 c hc).2.2.2.2⟩
    · exact hs c hc
  unfold extract_inr_amount
  rw [normalizeAmountText_clean hclean]
  obtain ⟨p2, s2, heq, hp2⟩ :=
    pyStrip_decomp p d w u s hd0 hd hu0 (fun c hc => (hu2 c hc).1)
      (fun c hc => (hp c hc).2.2)
  rw [heq]
  exact extractCore_unit p2 d w u s2 mu hp2 hd0 hd hw hu

lemma extract_inr_amount_nodigit (text : String)
    (h : ∀ c ∈ text.data, c.isDigit = false) :
    extract_inr_amount text = none := by
  unfold extract_inr_amount extractCore
  rw [suffix_nodigit (normalizeAmountText_nodigit h)]

lemma char_eq_of_toNat_eq {a b : Char} (h : a.toNat = b.toNat) : a = b :=
  Char.ext (UInt32.ext h)

lemma lexLe_total (x y : List Char) : lexLe x y = true ∨ lexLe y x = true := by
  induction x generalizing y with
  | nil => left; rfl
  | cons a as ih =>
    cases y with
    | nil => right; rfl
    | cons b bs =>
      by_cases hab : a = b
      · subst hab
        simp only [lexLe, if_pos rfl]
        exact ih bs
      · rcases Nat.lt_trichotomy a.toNat b.toNat with hlt | heq | hgt
        · left; simp [lexLe, hab, hlt]
        · exact absurd (char_eq_of_toNat_eq heq) hab
        · right
          simp [lexLe, Ne.symm hab, hgt]

lemma lexLe_trans {x y z : List Char} (h1 : lexLe x y = true) (h2 : lexLe y z = true) :
    lexLe x z = true := by
  induction x generalizing y z with
  | nil => rfl
  | cons a as ih =>
    cases y with
    | nil => simp [lexLe] at h1
    | cons b bs =>
      cases z with
      | nil => simp [lexLe] at h2
      | cons c cs =>
        by_cases hab : a = b <;> by_cases hbc : b = c
        · subst hab; subst hbc
          simp only [lexLe, if_pos rfl] at h1 h2 ⊢
          exact ih h1 h2
        · subst hab
          simp only [lexLe, if_pos rfl] at h1
          simp only [lexLe, if_neg hbc] at h2 ⊢
          exact h2
        · subst hbc
          simp only [lexLe, if_neg hab] at h1 ⊢
          exact h1
        · simp only [lexLe, if_neg hab] at h1
          simp only [lexLe, if_neg hbc] at h2
          rw [decide_eq_true_eq] at h1 h2
          by_cases hac : a = c
          · subst hac
            exact absurd (Nat.lt_trans h1 h2) (by simp)
          · simp [lexLe, hac, Nat.lt_trans h1 h2]

instance : IsTotal Item tsAsc :=
  ⟨fun a b => lexLe_total (tsKey a).data (tsKey b).data⟩

instance : IsTrans Item tsAsc :=
  ⟨fun _ _ _ h1 h2 => lexLe_trans h1 h2⟩

instance : IsTotal Item tsDesc :=
  ⟨fun a b => lexLe_total (tsKey b).data (tsKey a).data⟩

instance : IsTrans Item tsDesc :=
  ⟨fun _ _ _ h1 h2 => lexLe_trans h2 h1⟩

lemma getSession_set (m : Sessions) (u : String) (s : Session) :
    getSession (setSession m u s) u = some s := by
  simp [getSession, setSession, List.find?]

lemma getSession_del (m : Sessions) (u : String) :
    getSession (delSession m u) u = none := by
  simp only [getSession, delSession]
  have : List.find? (fun p => decide (p.1 = u)) (List.filter (fun p => decide (p.1 ≠ u)) m) = none := by
    rw [List.find?_eq_none]
    intro p hp
    rw [List.mem_filter] at hp
    simpa using hp.2
  rw [this]
  rfl

lemma deleteSpecific_eq_filter (ids : List String) (table : List Item) :
    (delete_specific_expenses table ids).1 =
      table.filter (fun r => decide (r.message_id ∉ ids)) := by
  induction ids generalizing table with
  | nil => simp [delete_specific_expenses]
  | cons i rest ih =>
    show (List.foldl _ (delete_item table i) rest) = _
    have := ih (delete_item table i)
    simp only [delete_specific_expenses] at this
    rw [this]
    unfold delete_item
    rw [List.filter_filter]
    apply List.filter_congr
    intro r _
    simp only [List.mem_cons, not_or]
    rw [Bool.and_comm]
    simp


/-- C1: a deletion request with `count=2, position="first"` snapshots a
pending session holding exactly the ids of the two records that are the
oldest by timestamp among the user records at request time; a later
confirmation with the correct code before expiry deletes exactly those
snapshotted ids from whatever the table then contains — in particular
every record whose id is not in the snapshot, such as one created after
the prompt was sent, survives. -/
theorem count2_first_request_then_confirm_deletes_oldest_two (uuid8 : String) (now : Q) (iso : Q → String) (table : List Item)
    (sessions : Sessions) (chat_id : Int) (username : String) (scope : Scope)
    (hcount : scope.count = .jint 2) (hpos : scope.position = .jstr "first")
    (hts : ∀ r ∈ get_all_user_expenses table username, r.timestamp ≠ none)
    (hamt : ∀ r ∈ get_all_user_expenses table username, r.amount ≠ none)
    (hlen : 2 ≤ (get_all_user_expenses table username).length) :
    (getSession (handle_deletion_request uuid8 now iso table sessions chat_id username scope).1 username =
      some { confirmation_code := uuid8, time_range := scope,
             expenses_to_delete := oldestTwoSnapshot table username,
             chat_id := chat_id, expense_count := 2, expires_at := now + 300 }) ∧
    (oldestTwoSnapshot table username).length = 2 ∧
    (∀ q ∈ (requestCandidatesAsc table username).take 2,
     ∀ r ∈ get_all_user_expenses table username,
       r ∉ (requestCandidatesAsc table username).take 2 →
       pyStrLe (tsKey q) (tsKey r) = true) ∧
    (∀ x ∈ oldestTwoSnapshot table username,
       ∃ r ∈ get_all_user_expenses table username, r.message_id = x) ∧
    (∀ (m : Sessions) (table2 : List Item) (now2 : Q) (text : String),
       getSession m username =
         some { confirmation_code := uuid8, time_range := scope,
                expenses_to_delete := oldestTwoSnapshot table username,
                chat_id := chat_id, expense_count := 2, expires_at := now + 300 } →
       ¬ (now + 300 < now2) →
       confirmCodeOf (pyLower text) = some uuid8 →
       is_deletion_confirmation m username text now2 = (true, m) ∧
       handle_deletion_confirmation table2 m username text =
         (table2.filter (fun r => decide (r.message_id ∉ oldestTwoSnapshot table username)),
          delSession m username,
          [.deletionSuccess 2 scope.description]) ∧
       (∀ r ∈ table2, r.message_id ∉ oldestTwoSnapshot table username →
          r ∈ (handle_deletion_confirmation table2 m username text).1) ∧
       (∀ r ∈ table2, r.message_id ∈ oldestTwoSnapshot table username →
          r ∉ (handle_deletion_confirmation table2 m username text).1)) := by
  have hlen2 : (requestCandidatesAsc table username).length =
      (get_all_user_expenses table username).length :=
    List.length_insertionSort tsAsc _
  have htake2 : ((requestCandidatesAsc table username).take 2).length = 2 := by
    rw [List.length_take, hlen2]
    omega
  have hperm := List.perm_insertionSort tsAsc (get_all_user_expenses table username)
  have hmem_take : ∀ r ∈ (requestCandidatesAsc table username).take 2,
      r ∈ get_all_user_expenses table username := by
    intro r hr
    exact hperm.mem_iff.mp (List.mem_of_mem_take hr)
  -- evaluate the request
  have hany : (get_all_user_expenses table username).any (fun r => r.timestamp.isNone) = false := by
    rw [List.any_eq_false]
    intro r hr
    simpa [Option.isNone_iff_eq_none] using hts r hr
  have hmin : min (2 : Int) ((requestCandidatesAsc table username).length : Int) = 2 := by
    rw [hlen2]
    omega
  have hslice : pySliceTo (requestCandidatesAsc table username) 2 =
      (requestCandidatesAsc table username).take 2 := rfl
  have hanyamt : ((requestCandidatesAsc table username).take 2).any
      (fun r => r.amount.isNone) = false := by
    rw [List.any_eq_false]
    intro r hr
    simpa [Option.isNone_iff_eq_none] using hamt r (hmem_take r hr)
  have hmain : handle_deletion_request uuid8 now iso table sessions chat_id username scope =
      (setSession sessions username
        { confirmation_code := uuid8, time_range := scope,
          expenses_to_delete := oldestTwoSnapshot table username,
          chat_id := chat_id, expense_count := 2, expires_at := now + 300 },
       [.deletionPrompt 2 uuid8 (totalAmount ((requestCandidatesAsc table username).take 2))
          scope.description]) := by
    simp only [handle_deletion_request, hcount, hpos, hany, Bool.false_eq_true, if_false]
    rw [if_pos (show (JVal.jint 2) ≠ JVal.jnull by decide)]
    rw [if_neg (show ¬ (JVal.jstr "first" = JVal.jstr "last") by decide)]
    show finishDeletionRequest _ _ _ _ _ _
      (pySliceTo (requestCandidatesAsc table username)
        (min 2 ((requestCandidatesAsc table username).length : Int))) = _
    rw [hmin, hslice]
    simp only [finishDeletionRequest, hanyamt, htake2, Bool.false_eq_true, if_false]
    rw [if_neg (by omega)]
    rfl
  refine ⟨?_, ?_, ?_, ?_, ?_⟩
  · rw [hmain]
    exact getSession_set _ _ _
  · simp only [oldestTwoSnapshot, List.length_map]
    exact htake2
  · intro q hq r hr hnr
    have hsorted : List.Sorted tsAsc (requestCandidatesAsc table username) :=
      List.sorted_insertionSort tsAsc _
    have hrs : r ∈ requestCandidatesAsc table username := hperm.mem_iff.mpr hr
    rw [← List.take_append_drop 2 (requestCandidatesAsc table username)] at hrs
    rcases List.mem_append.mp hrs with h | h
    · exact absurd h hnr
    · exact hsorted.rel_of_mem_take_of_mem_drop hq h
  · intro x hx
    simp only [oldestTwoSnapshot, List.mem_map] at hx
    obtain ⟨r, hr, rfl⟩ := hx
    exact ⟨r, hmem_take r hr, rfl⟩
  · intro m table2 now2 text hm hnow hcode
    have hnc : pyLower text ≠ "cancel" := by
      intro hc
      rw [hc, show confirmCodeOf "cancel" = none by decide] at hcode
      exact Option.noConfusion hcode
    have hconf : is_deletion_confirmation m username text now2 = (true, m) := by
      simp only [is_deletion_confirmation, hm]
      rw [if_neg hnow]
      rw [if_neg hnc]
      rw [hcode]
      simp
    refine ⟨hconf, ?_, ?_, ?_⟩
    · simp only [handle_deletion_confirmation, hm]
      rw [if_neg hnc]
      rw [show (delete_specific_expenses table2 (oldestTwoSnapshot table username)).1
          = table2.filter (fun r => decide (r.message_id ∉ oldestTwoSnapshot table username))
          from deleteSpecific_eq_filter _ _]
      have hcnt : (delete_specific_expenses table2 (oldestTwoSnapshot table username)).2 = 2 := by
        show (oldestTwoSnapshot table username).length = 2
        simp only [oldestTwoSnapshot, List.length_map]
        exact htake2
      rw [hcnt]
    · intro r hr hnin
      simp only [handle_deletion_confirmation, hm]
      rw [if_neg hnc]
      show r ∈ (delete_specific_expenses table2 (oldestTwoSnapshot table username)).1
      rw [deleteSpecific_eq_filter]
      rw [List.mem_filter]
      exact ⟨hr, by simpa using hnin⟩
    · intro r hr hin
      simp only [handle_deletion_confirmation, hm]
      rw [if_neg hnc]
      show r ∉ (delete_specific_expenses table2 (oldestTwoSnapshot table username)).1
      rw [deleteSpecific_eq_filter]
      rw [List.mem_filter]
      rintro ⟨-, hdec⟩
      simp at hdec
      exact hdec hin

lemma check_iff_exists {table : List Item} {mid : String} :
    check_if_processed table mid = true ↔
      ∃ r ∈ table, r.message_id = "MSG#" ++ mid := by
  simp [check_if_processed, List.any_eq_true]

lemma check_put_self (table : List Item) (mid iso : String) :
    check_if_processed (mark_as_processed table mid iso) mid = true := by
  simp [mark_as_processed, put_item, check_if_processed]

lemma check_put_other {table : List Item} {mid : String} (item : Item)
    (hc : check_if_processed table mid = true)
    (hne : item.message_id ≠ "MSG#" ++ mid) :
    check_if_processed (put_item table item) mid = true := by
  rw [check_iff_exists] at hc ⊢
  obtain ⟨r, hr, hrid⟩ := hc
  refine ⟨r, ?_, hrid⟩
  simp only [put_item, List.mem_cons, List.mem_filter]
  right
  refine ⟨hr, ?_⟩
  simp only [decide_eq_true_eq]
  rw [hrid]
  exact fun h => hne h.symm

lemma check_deleteSpecific {table : List Item} {mid : String} {ids : List String}
    (hc : check_if_processed table mid = true)
    (hnin : ("MSG#" ++ mid) ∉ ids) :
    check_if_processed (delete_specific_expenses table ids).1 mid = true := by
  rw [deleteSpecific_eq_filter]
  rw [check_iff_exists] at hc ⊢
  obtain ⟨r, hr, hrid⟩ := hc
  refine ⟨r, ?_, hrid⟩
  rw [List.mem_filter]
  refine ⟨hr, ?_⟩
  simp only [decide_eq_true_eq]
  rw [hrid]
  exact hnin

lemma getSession_del_other {m : Sessions} {u v : String} (hne : v ≠ u) :
    getSession (delSession m u) v = getSession m v := by
  induction m with
  | nil => rfl
  | cons p ps ih =>
    by_cases hp : p.1 = u
    · simp only [delSession, List.filter_cons]
      rw [if_neg (by simpa using hp)]
      show getSession (delSession ps u) v = _
      rw [ih]
      have hpv : p.1 ≠ v := by rw [hp]; exact Ne.symm hne
      simp only [getSession, List.find?]
      rw [show (decide (p.1 = v)) = false by simp [hpv]]
    · simp only [delSession, List.filter_cons]
      rw [if_pos (by simpa using hp)]
      by_cases hv : p.1 = v
      · simp [getSession, List.find?, hv]
      · simp only [getSession, List.find?]
        rw [show (decide (p.1 = v)) = false by simp [hv]]
        exact ih

lemma idc_snd_cases (sessions : Sessions) (u text : String) (now : Q) :
    (is_deletion_confirmation sessions u text now).2 = sessions ∨
    (is_deletion_confirmation sessions u text now).2 = delSession sessions u := by
  unfold is_deletion_confirmation
  cases getSession sessions u with
  | none => left; rfl
  | some conf =>
    simp only []
    split
    · right; rfl
    · split
      · right; rfl
      · split
        · left; rfl
        · left; rfl

lemma getSession_idc_mono {sessions : Sessions} {u text : String} {now : Q}
    {v : String} {s : Session}
    (h : getSession (is_deletion_confirmation sessions u text now).2 v = some s) :
    getSession sessions v = some s := by
  rcases idc_snd_cases sessions u text now with he | he <;> rw [he] at h
  · exact h
  · by_cases hv : v = u
    · rw [hv, getSession_del] at h
      exact Option.noConfusion h
    · rw [getSession_del_other hv] at h
      exact h

lemma exp_key_ne_msg_key (u iso mid : String) :
    ("EXP#" ++ u ++ "#" ++ iso) ≠ ("MSG#" ++ mid) := by
  intro h
  have h2 := congrArg (fun s => s.data) h
  simp only [String.data_append] at h2
  have h3 := congrArg List.head? h2
  simp only [List.append_assoc] at h3
  norm_num [String.data] at h3
  exact absurd h3 (by decide)

lemma check_hdc {table : List Item} (sessions2 : Sessions) (u text mid : String)
    (hc : check_if_processed table mid = true)
    (hids : ∀ s, getSession sessions2 u = some s →
      ("MSG#" ++ mid) ∉ s.expenses_to_delete) :
    check_if_processed (handle_deletion_confirmation table sessions2 u text).1 mid = true := by
  unfold handle_deletion_confirmation
  cases hg : getSession sessions2 u with
  | none => simpa using hc
  | some conf =>
    simp only []
    split
    · exact hc
    · exact check_deleteSpecific hc (hids conf hg)

lemma check_store {table : List Item} {mid : String} (username : String)
    (analysis : Analysis) (text iso : String)
    (hc : check_if_processed table mid = true) :
    check_if_processed (store_user_expense table username analysis text iso) mid = true := by
  unfold store_user_expense
  cases analysis.amount with
  | none => exact hc
  | some a =>
    simp only []
    split
    · exact hc
    · exact check_put_other _ hc (exp_key_ne_msg_key username iso mid)

lemma marker_present_after (env : Env) (table : List Item) (sessions : Sessions) (msg : Msg)
    (hval1 : chatTruthy msg.chat_id = true) (hval2 : pyStripStr msg.text ≠ "")
    (hsnap : ∀ u s, getSession sessions u = some s →
      ("MSG#" ++ midStr msg) ∉ s.expenses_to_delete) :
    check_if_processed (lambda_handler env table sessions msg).table (midStr msg) = true := by
  have hcond : (!chatTruthy msg.chat_id || pyStripStr msg.text = "") = false := by
    simp [hval1, hval2]
  by_cases hcp : check_if_processed table (midStr msg) = true
  · simp only [lambda_handler, hcond, Bool.false_eq_true, if_false]
    rw [if_pos hcp]
    exact hcp
  · rw [Bool.not_eq_true] at hcp
    simp only [lambda_handler, hcond, Bool.false_eq_true, if_false, hcp]
    have hmark : check_if_processed
        (mark_as_processed table (midStr msg) env.nowIso) (midStr msg) = true :=
      check_put_self table (midStr msg) env.nowIso
    have hids : ∀ u s, getSession
        (is_deletion_confirmation sessions (userOf msg) (pyStripStr msg.text) env.now).2 u
          = some s → ("MSG#" ++ midStr msg) ∉ s.expenses_to_delete :=
      fun u s h => hsnap u s (getSession_idc_mono h)
    split
    · exact check_hdc _ _ _ _ hmark (hids (userOf msg))
    · repeat' split
      all_goals first | exact check_store _ _ _ _ hmark | exact hmark

lemma handler_status_200 (env : Env) (table : List Item) (sessions : Sessions) (msg : Msg)
    (hval1 : chatTruthy msg.chat_id = true) (hval2 : pyStripStr msg.text ≠ "") :
    (lambda_handler env table sessions msg).status = 200 := by
  have hcond : (!chatTruthy msg.chat_id || pyStripStr msg.text = "") = false := by
    simp [hval1, hval2]
  simp only [lambda_handler, hcond, Bool.false_eq_true, if_false]
  repeat' split
  all_goals rfl

/-- C3: delivering a message with the same stringified message id a
second time short-circuits on the processed-message marker: the second
invocation returns "Already processed" with the table unchanged (no
second ExpenseRecord) and an empty reply list (no second reply). -/
theorem second_delivery_same_message_id_short_circuits (env1 env2 : Env) (table : List Item) (sessions s2 : Sessions) (m1 m2 : Msg)
    (hmid : midStr m2 = midStr m1)
    (h1a : chatTruthy m1.chat_id = true) (h1b : pyStripStr m1.text ≠ "")
    (h2a : chatTruthy m2.chat_id = true) (h2b : pyStripStr m2.text ≠ "")
    (hsnap : ∀ u s, getSession sessions u = some s →
      ("MSG#" ++ midStr m1) ∉ s.expenses_to_delete) :
    lambda_handler env2 (lambda_handler env1 table sessions m1).table s2 m2 =
      ⟨(lambda_handler env1 table sessions m1).table, s2, 200, "Already processed", []⟩ := by
  have hm := marker_present_after env1 table sessions m1 h1a h1b hsnap
  have hcond2 : (!chatTruthy m2.chat_id || pyStripStr m2.text = "") = false := by
    simp [h2a, h2b]
  set T := (lambda_handler env1 table sessions m1).table with hT
  simp only [lambda_handler, hcond2, Bool.false_eq_true, if_false]
  rw [hmid, if_pos hm]

/-- C10: a valid message lacking `message_id` is not rejected — it is
processed under the shared idempotency key `MSG#None`, and any later
valid message lacking `message_id`, from any user and chat, is then
short-circuited as already processed. -/
theorem missing_message_id_shared_none_key (env1 env2 : Env) (table : List Item) (sessions s2 : Sessions) (m1 m2 : Msg)
    (hid1 : m1.message_id = none) (hid2 : m2.message_id = none)
    (h1a : chatTruthy m1.chat_id = true) (h1b : pyStripStr m1.text ≠ "")
    (h2a : chatTruthy m2.chat_id = true) (h2b : pyStripStr m2.text ≠ "")
    (hfresh0 : check_if_processed table "None" = false)
    (hsnap : ∀ u s, getSession sessions u = some s →
      ("MSG#None") ∉ s.expenses_to_delete) :
    (lambda_handler env1 table sessions m1).status = 200 ∧
    (lambda_handler env1 table sessions m1).body ≠ "Invalid request" ∧
    (lambda_handler env1 table sessions m1).body ≠ "Already processed" ∧
    check_if_processed (lambda_handler env1 table sessions m1).table "None" = true ∧
    lambda_handler env2 (lambda_handler env1 table sessions m1).table s2 m2 =
      ⟨(lambda_handler env1 table sessions m1).table, s2, 200, "Already processed", []⟩ := by
  have hmid1 : midStr m1 = "None" := by simp [midStr, hid1]
  have hmid2 : midStr m2 = "None" := by simp [midStr, hid2]
  have hsnap1 : ∀ u s, getSession sessions u = some s →
      ("MSG#" ++ midStr m1) ∉ s.expenses_to_delete := by
    rw [hmid1]; exact hsnap
  have hm := marker_present_after env1 table sessions m1 h1a h1b hsnap1
  rw [hmid1] at hm
  have hcond1 : (!chatTruthy m1.chat_id || pyStripStr m1.text = "") = false := by
    simp [h1a, h1b]
  refine ⟨handler_status_200 env1 table sessions m1 h1a h1b, ?_, ?_, hm, ?_⟩
  · simp only [lambda_handler, hcond1, Bool.false_eq_true, if_false]
    rw [hmid1, hfresh0]
    simp only [Bool.false_eq_true, if_false]
    repeat' split
    all_goals simp
  · simp only [lambda_handler, hcond1, Bool.false_eq_true, if_false]
    rw [hmid1, hfresh0]
    simp only [Bool.false_eq_true, if_false]
    repeat' split
    all_goals simp
  · have hcond2 : (!chatTruthy m2.chat_id || pyStripStr m2.text = "") = false := by
      simp [h2a, h2b]
    set T := (lambda_handler env1 table sessions m1).table with hT
    simp only [lambda_handler, hcond2, Bool.false_eq_true, if_false]
    rw [hmid2, if_pos hm]

lemma mem_put_item {r : Item} {t : List Item} (item : Item) (h : r ∈ t)
    (hne : r.message_id ≠ item.message_id) : r ∈ put_item t item := by
  simp only [put_item, List.mem_cons, List.mem_filter]
  right
  exact ⟨h, by simpa using hne⟩

lemma mem_mark {r : Item} {t : List Item} {mid : String} (iso : String) (h : r ∈ t)
    (hnp : check_if_processed t mid = false) : r ∈ mark_as_processed t mid iso := by
  refine mem_put_item _ h ?_
  rw [check_if_processed, List.any_eq_false] at hnp
  simpa using hnp r h

lemma mem_store {r : Item} {t : List Item} (username : String) (analysis : Analysis)
    (text iso : String) (h : r ∈ t)
    (hne : r.message_id ≠ "EXP#" ++ username ++ "#" ++ iso) :
    r ∈ store_user_expense t username analysis text iso := by
  unfold store_user_expense
  cases analysis.amount with
  | none => exact h
  | some a =>
    simp only []
    split
    · exact h
    · exact mem_put_item _ h hne

lemma handler_table_keeps (env : Env) (table : List Item) (sessions : Sessions) (msg : Msg)
    (hnp : check_if_processed table (midStr msg) = false)
    (hfresh : ∀ r ∈ table, r.message_id ≠ "EXP#" ++ userOf msg ++ "#" ++ env.nowIso)
    (hnoconf : (is_deletion_confirmation sessions (userOf msg) (pyStripStr msg.text) env.now).1 = false) :
    ∀ r ∈ table, r ∈ (lambda_handler env table sessions msg).table := by
  intro r hr
  by_cases hcond : (!chatTruthy msg.chat_id || pyStripStr msg.text = "") = true
  · simp only [lambda_handler, hcond, if_true]
    exact hr
  · rw [Bool.not_eq_true] at hcond
    simp only [lambda_handler, hcond, Bool.false_eq_true, if_false, hnp, hnoconf]
    have hmark := @mem_mark _ _ (midStr msg) env.nowIso hr hnp
    repeat' split
    all_goals first
      | exact mem_store _ _ _ _ hmark (by
          have := hfresh r hr
          exact this)
      | exact hmark

lemma idc_wrong_code {sessions : Sessions} {u text : String} {now : Q} {sess : Session}
    {code : String}
    (hsess : getSession sessions u = some sess)
    (hnow : ¬ (sess.expires_at < now))
    (hcode : confirmCodeOf (pyLower text) = some code)
    (hne : code ≠ sess.confirmation_code) :
    is_deletion_confirmation sessions u text now = (false, sessions) := by
  have hnc : pyLower text ≠ "cancel" := by
    intro hc
    rw [hc, show confirmCodeOf "cancel" = none by decide] at hcode
    exact Option.noConfusion hcode
  simp only [is_deletion_confirmation, hsess]
  rw [if_neg hnow, if_neg hnc, hcode]
  simp [hne]

lemma idc_expired {sessions : Sessions} {u text : String} {now : Q} {sess : Session}
    (hsess : getSession sessions u = some sess)
    (hexp : sess.expires_at < now) :
    is_deletion_confirmation sessions u text now = (false, delSession sessions u) := by
  simp only [is_deletion_confirmation, hsess]
  rw [if_pos hexp]

lemma hdr_keeps_session {sessions : Sessions} {u : String} {sess : Session}
    (uuid8 : String) (now : Q) (iso : Q → String) (table : List Item)
    (chat_id : Int) (scope : Scope)
    (hsess : getSession sessions u = some sess) :
    ∃ s', getSession (handle_deletion_request uuid8 now iso table sessions chat_id u scope).1 u
      = some s' := by
  simp only [handle_deletion_request, finishDeletionRequest]
  repeat' split
  all_goals first
    | exact ⟨sess, hsess⟩
    | exact ⟨_, getSession_set _ _ _⟩

/-- C4: with a pending session, a confirm message carrying a wrong code
before expiry deletes no records and leaves the user with a pending
session (the same session whenever the text is not also a deletion
request); any message arriving after `expires_at` — a confirm or cancel
included — finds the session removed on lookup and deletes no records. -/
theorem wrong_code_or_expired_confirm_deletes_nothing (env : Env) (table : List Item) (sessions : Sessions) (msg : Msg) (sess : Session)
    (hval1 : chatTruthy msg.chat_id = true) (hval2 : pyStripStr msg.text ≠ "")
    (hnp : check_if_processed table (midStr msg) = false)
    (hfresh : ∀ r ∈ table, r.message_id ≠ "EXP#" ++ userOf msg ++ "#" ++ env.nowIso)
    (hsess : getSession sessions (userOf msg) = some sess) :
    ((¬ (sess.expires_at < env.now)) →
     ∀ code, confirmCodeOf (pyLower (pyStripStr msg.text)) = some code →
       code ≠ sess.confirmation_code →
       (∀ r ∈ table, r ∈ (lambda_handler env table sessions msg).table) ∧
       (∃ s', getSession (lambda_handler env table sessions msg).sessions (userOf msg) = some s') ∧
       (is_deletion_request (pyStripStr msg.text) = false →
         getSession (lambda_handler env table sessions msg).sessions (userOf msg) = some sess))
    ∧
    (sess.expires_at < env.now →
      (∀ r ∈ table, r ∈ (lambda_handler env table sessions msg).table) ∧
      (is_deletion_request (pyStripStr msg.text) = false →
        getSession (lambda_handler env table sessions msg).sessions (userOf msg) = none)) := by
  have hcond : (!chatTruthy msg.chat_id || pyStripStr msg.text = "") = false := by
    simp [hval1, hval2]
  constructor
  · intro hnow code hcode hne
    have hidc := idc_wrong_code hsess hnow hcode hne
    have hnoconf : (is_deletion_confirmation sessions (userOf msg) (pyStripStr msg.text) env.now).1
        = false := by rw [hidc]
    refine ⟨handler_table_keeps env table sessions msg hnp hfresh hnoconf, ?_, ?_⟩
    · simp only [lambda_handler, hcond, Bool.false_eq_true, if_false, hnp, hidc]
      repeat' split
      all_goals first
        | exact hdr_keeps_session env.uuid8 env.now env.isoDaysAgo
            (mark_as_processed table (midStr msg) env.nowIso) (msg.chat_id.getD 0)
            (extract_deletion_time_range env.deletionScopeCall env.jsonLoads) hsess
        | exact ⟨sess, hsess⟩
    · intro hnd
      simp only [lambda_handler, hcond, Bool.false_eq_true, if_false, hnp, hidc, hnd]
      repeat' split
      all_goals exact hsess
  · intro hexp
    have hidc := @idc_expired _ _ (pyStripStr msg.text) _ _ hsess hexp
    have hnoconf : (is_deletion_confirmation sessions (userOf msg) (pyStripStr msg.text) env.now).1
        = false := by rw [hidc]
    refine ⟨handler_table_keeps env table sessions msg hnp hfresh hnoconf, ?_⟩
    intro hnd
    simp only [lambda_handler, hcond, Bool.false_eq_true, if_false, hnp, hidc, hnd]
    repeat' split
    all_goals exact getSession_del sessions (userOf msg)

lemma Q.pos_of_not_le {a : Q} (h : ¬ (a ≤ 0)) : 0 < a := by
  have e1 : Q.ble a 0 = decide ((a.num * 1 : Int) ≤ 0 * (a.den : Int)) := rfl
  have e2 : Q.blt 0 a = decide (((0 : Int) * (a.den : Int)) < a.num * 1) := rfl
  have h2 : ¬ (Q.ble a 0 = true) := h
  rw [e1, decide_eq_true_eq] at h2
  show Q.blt 0 a = true
  rw [e2, decide_eq_true_eq]
  omega

lemma mem_of_mem_put {r item : Item} {t : List Item} (h : r ∈ put_item t item) :
    r = item ∨ r ∈ t := by
  simp only [put_item, List.mem_cons, List.mem_filter] at h
  rcases h with h | h
  · exact Or.inl h
  · exact Or.inr h.1

lemma AmountInv_of_subset {t t' : List Item} (hsub : ∀ r ∈ t', r ∈ t)
    (hinv : AmountInv t) : AmountInv t' :=
  fun r hr => hinv r (hsub r hr)

lemma AmountInv_put {t : List Item} {item : Item} (hinv : AmountInv t)
    (hitem : item.rtype = some "EXPENSE" → ∀ a, item.amount = some a → 0 < a) :
    AmountInv (put_item t item) := by
  intro r hr
  rcases mem_of_mem_put hr with rfl | hr2
  · exact hitem
  · exact hinv r hr2

lemma AmountInv_mark {t : List Item} (mid iso : String) (hinv : AmountInv t) :
    AmountInv (mark_as_processed t mid iso) := by
  refine AmountInv_put hinv ?_
  intro h
  exact absurd h (by simp)

lemma AmountInv_store {t : List Item} (username : String) (analysis : Analysis)
    (text iso : String) (hinv : AmountInv t) :
    AmountInv (store_user_expense t username analysis text iso) := by
  unfold store_user_expense
  cases analysis.amount with
  | none => exact hinv
  | some a =>
    simp only []
    split
    · exact hinv
    · next hgt =>
      refine AmountInv_put hinv ?_
      intro _ a2 ha2
      simp only [Option.some.injEq] at ha2
      subst ha2
      exact Q.pos_of_not_le hgt

lemma AmountInv_hdc {t : List Item} (sessions2 : Sessions) (u text : String)
    (hinv : AmountInv t) :
    AmountInv (handle_deletion_confirmation t sessions2 u text).1 := by
  unfold handle_deletion_confirmation
  cases getSession sessions2 u with
  | none => exact hinv
  | some conf =>
    simp only []
    split
    · exact hinv
    · refine AmountInv_of_subset ?_ hinv
      intro r hr
      rw [deleteSpecific_eq_filter] at hr
      exact (List.mem_filter.mp hr).1

lemma AmountInv_handler (env : Env) (table : List Item) (sessions : Sessions)
    (msg : Msg) (hinv : AmountInv table) :
    AmountInv (lambda_handler env table sessions msg).table := by
  by_cases hcond : (!chatTruthy msg.chat_id || pyStripStr msg.text = "") = true
  · simp only [lambda_handler, hcond, if_true]
    exact hinv
  · rw [Bool.not_eq_true] at hcond
    simp only [lambda_handler, hcond, Bool.false_eq_true, if_false]
    have hmk : AmountInv (mark_as_processed table (midStr msg) env.nowIso) :=
      AmountInv_mark _ _ hinv
    repeat' split
    all_goals first
      | exact hinv
      | exact AmountInv_hdc _ _ _ hmk
      | exact AmountInv_store _ _ _ _ hmk
      | exact hmk

lemma revalidate_fallback (prompt : String) :
    revalidateAmount (fallback_analysis prompt) prompt = fallback_analysis prompt := by
  cases hE : extract_inr_amount prompt with
  | none => simp [revalidateAmount, fallback_analysis, hE]
  | some a =>
    by_cases ha : a = 0
    · simp [revalidateAmount, fallback_analysis, hE, ha]
    · simp only [revalidateAmount, fallback_analysis, hE, if_neg ha]
      split
      · simp [reExtractAmount, hE, ha]
      · split
        · simp [reExtractAmount, hE, ha]
        · rfl

/-- C6: every failure of the external classifier call — network error,
timeout, non-2xx response, absent JSON span, JSON parse failure, or a
missing `amount`/`category` field — makes `analyze_expense` return
exactly the deterministic `fallback_analysis` result (Amount Parser
amount, keyword/emoji category, canned message); the embedding is a
total function, so no exception escapes. -/
theorem analyze_expense_failure_modes_return_fallback (call : CallOutcome) (loads : String → Option JObj) (prompt : String) :
    (call = .networkError → analyze_expense call loads prompt = fallback_analysis prompt) ∧
    (call = .timeoutError → analyze_expense call loads prompt = fallback_analysis prompt) ∧
    (call = .httpError → analyze_expense call loads prompt = fallback_analysis prompt) ∧
    (∀ rt, call = .ok rt → findJsonSpan rt.data = none →
      analyze_expense call loads prompt = fallback_analysis prompt) ∧
    (∀ rt span, call = .ok rt → findJsonSpan rt.data = some span →
      loads (String.mk span) = none →
      analyze_expense call loads prompt = fallback_analysis prompt) ∧
    (∀ rt span obj, call = .ok rt → findJsonSpan rt.data = some span →
      loads (String.mk span) = some obj →
      (obj.amount = none ∨ obj.category = none) →
      analyze_expense call loads prompt = fallback_analysis prompt) := by
  refine ⟨?_, ?_, ?_, ?_, ?_, ?_⟩
  · rintro rfl; rfl
  · rintro rfl; rfl
  · rintro rfl; rfl
  · rintro rt rfl hspan
    show revalidateAmount (parse_gemini_response loads rt prompt) prompt = _
    rw [show parse_gemini_response loads rt prompt = fallback_analysis prompt by
      unfold parse_gemini_response; simp only [hspan]]
    exact revalidate_fallback prompt
  · rintro rt span rfl hspan hload
    show revalidateAmount (parse_gemini_response loads rt prompt) prompt = _
    rw [show parse_gemini_response loads rt prompt = fallback_analysis prompt by
      unfold parse_gemini_response; simp only [hspan, hload]]
    exact revalidate_fallback prompt
  · rintro rt span obj rfl hspan hload hmiss
    show revalidateAmount (parse_gemini_response loads rt prompt) prompt = _
    rw [show parse_gemini_response loads rt prompt = fallback_analysis prompt by
      unfold parse_gemini_response
      simp only [hspan, hload]
      rcases hmiss with h | h
      · rw [h]
      · rw [h]
        cases hoa : obj.amount with
        | none => rfl
        | some v => rfl]
    exact revalidate_fallback prompt

/-- C7: for every text whose first digit sequence is followed, after
optional whitespace, by a unit token (k/thousand ×1,000; l/lakh/lakhs
×100,000; cr/crore/crores ×10,000,000), the Amount Parser returns the
base number times that multiplier, for any suffix after the token; and
for every text containing no digit it returns none. -/
theorem amount_parser_unit_multiplier_and_no_digit :
    (∀ (p d w u s : List Char) (mu : Q),
      (∀ c ∈ p, lowerChar c = c ∧ c ≠ ',' ∧ c.isDigit = false) →
      d ≠ [] →
      (∀ c ∈ d, c.isDigit = true) →
      (∀ c ∈ w, isPySpace c = true) →
      (u, mu) ∈ unitTable →
      (∀ c ∈ s, lowerChar c = c ∧ c ≠ ',') →
      extract_inr_amount (String.mk (p ++ d ++ w ++ u ++ s)) =
        some (Q.ofInt (digitsVal d) * mu)) ∧
    (∀ text : String, (∀ c ∈ text.data, c.isDigit = false) →
      extract_inr_amount text = none) :=
  ⟨extract_inr_amount_unit, extract_inr_amount_nodigit⟩

/-- Witness for C7 at concrete inputs. -/
theorem amount_parser_unit_multiplier_and_no_digit_witness :
    extract_inr_amount
        (String.mk ("price ".data ++ "500".data ++ " ".data ++ "k".data ++ " only".data)) =
      some 500000 ∧
    extract_inr_amount "hello" = none := by
  constructor
  · have h := amount_parser_unit_multiplier_and_no_digit.1 "price ".data "500".data
      " ".data "k".data " only".data 1000
      (by decide) (by decide) (by decide) (by decide) (by decide) (by decide)
    rw [h]
    decide
  · exact amount_parser_unit_multiplier_and_no_digit.2 "hello" (by decide)

/-- C9: the unit token needs no word boundary — any suffix directly after
the token keeps the multiplier applied, so "500 litres" parses as 500 ×
100,000 (the token `l` matching the start of "litres") and not as 500. -/
theorem unit_token_matches_without_word_boundary :
    (∀ s : List Char, (∀ c ∈ s, lowerChar c = c ∧ c ≠ ',') →
      extract_inr_amount (String.mk ("500 l".data ++ s)) = some 50000000) ∧
    extract_inr_amount "500 litres" = some 50000000 ∧
    extract_inr_amount "500" = some 500 := by
  refine ⟨?_, by decide, by decide⟩
  intro s hs
  have h := extract_inr_amount_unit [] "500".data [' '] ['l'] s 100000
    (by decide) (by decide) (by decide) (by decide) (by decide) hs
  rw [show String.mk (([] : List Char) ++ "500".data ++ [' '] ++ ['l'] ++ s)
      = String.mk ("500 l".data ++ s) from rfl] at h
  rw [h]
  decide

/-- Witness for C9 at a concrete suffix. -/
theorem unit_token_matches_without_word_boundary_witness :
    extract_inr_amount (String.mk ("500 l".data ++ "akeside".data)) = some 50000000 :=
  unit_token_matches_without_word_boundary.1 "akeside".data (by decide)

/-- C8: `store_user_expense` silently skips any analysis whose parsed
amount is non-positive, and one handler invocation preserves the
invariant that every stored EXPENSE item has a positive amount. -/
theorem store_rejects_nonpositive_amount_invariant :
    (∀ (table : List Item) (username : String) (analysis : Analysis)
       (text iso : String) (a : Q),
      analysis.amount = some a → a ≤ 0 →
      store_user_expense table username analysis text iso = table) ∧
    (∀ (env : Env) (table : List Item) (sessions : Sessions) (msg : Msg),
      AmountInv table → AmountInv (lambda_handler env table sessions msg).table) := by
  constructor
  · intro table username analysis text iso a ha hle
    simp only [store_user_expense, ha]
    rw [if_pos hle]
  · exact AmountInv_handler

/-- Witness for C8: a negative amount is skipped; the invariant survives
a full invocation that stores an expense. -/
theorem store_rejects_nonpositive_amount_invariant_witness :
    store_user_expense tblA "alice"
        { amount := some (Q.ofInt (-5)), category := "Food", message := "m" }
        "x" "2024-01-05T00:00:00" = tblA ∧
    AmountInv (lambda_handler envA tblA [] msgSpend).table := by
  constructor
  · exact store_rejects_nonpositive_amount_invariant.1 tblA "alice" _ "x"
      "2024-01-05T00:00:00" (Q.ofInt (-5)) rfl (by decide)
  · refine store_rejects_nonpositive_amount_invariant.2 envA tblA [] msgSpend ?_
    intro r hr ht a ha
    fin_cases hr <;> simp only [exA1, exA2, exA3] at ha ⊢ <;>
      (injection ha with h; subst h; decide)

/-- C2: evaluation at the failing input.  For a scope with `count = 2`
and a null `position` — exactly what the extractor returns when the
classifier reports `position: null` — the snapshot holds the two OLDEST
records, not the two most recent: `time_range.get("position", "last")`
returns the stored `None` because the key is always present, so the
comparison with `"last"` fails and the ascending branch is taken,
contradicting the claimed most-recent-first default (which would select
the 03/02 ids, the second conjunct). -/
theorem null_position_count_scope_selects_oldest :
    (getSession (handle_deletion_request "abcd1234" 1000 isoF tblA [] 7 "alice" scNull).1
        "alice").map (fun s => s.expenses_to_delete) =
      some ["EXP#alice#2024-01-01T10:00:00", "EXP#alice#2024-01-02T10:00:00"] ∧
    (["EXP#alice#2024-01-01T10:00:00", "EXP#alice#2024-01-02T10:00:00"] : List String) ≠
      ["EXP#alice#2024-01-03T10:00:00", "EXP#alice#2024-01-02T10:00:00"] := by
  decide

/-- C5: evaluation at the failing input.  With a live unexpired session,
the exact message "cancel" does discard the session and deletes nothing,
but the reply sent is the no-pending-request message, not the
data-remains-intact cancellation message: `is_deletion_confirmation`
already removed the session, so `handle_deletion_confirmation` finds no
session and its cancellation branch is dead code. -/
theorem cancel_discards_session_but_replies_no_pending :
    lambda_handler envA tblA [("alice", sessW)] msgCancel =
      { table := mk555 :: tblA, sessions := [], status := 200,
        body := "Deletion confirmation processed", replies := [.noPendingDeletion] } ∧
    Reply.noPendingDeletion ≠ Reply.deletionCancelled := by
  decide

/-- Witness for C1 over the fixture table. -/
theorem count2_first_request_then_confirm_deletes_oldest_two_witness :
    getSession (handle_deletion_request "abcd1234" 1000 isoF tblA [] 7 "alice" scFirst).1
        "alice" =
      some { confirmation_code := "abcd1234", time_range := scFirst,
             expenses_to_delete := oldestTwoSnapshot tblA "alice",
             chat_id := 7, expense_count := 2, expires_at := 1000 + 300 } ∧
    handle_deletion_confirmation tblA
        (handle_deletion_request "abcd1234" 1000 isoF tblA [] 7 "alice" scFirst).1
        "alice" "confirm abcd1234" =
      (tblA.filter (fun r => decide (r.message_id ∉ oldestTwoSnapshot tblA "alice")),
       delSession (handle_deletion_request "abcd1234" 1000 isoF tblA [] 7 "alice" scFirst).1
         "alice",
       [.deletionSuccess 2 scFirst.description]) := by
  have h := count2_first_request_then_confirm_deletes_oldest_two "abcd1234" 1000 isoF tblA
    [] 7 "alice" scFirst rfl rfl (by decide) (by decide) (by decide)
  refine ⟨h.1, ?_⟩
  exact ((h.2.2.2.2) _ tblA 1100 "confirm abcd1234" h.1 (by decide) (by decide)).2.1

/-- Witness for C3: replaying the same expense message. -/
theorem second_delivery_same_message_id_short_circuits_witness :
    lambda_handler envA (lambda_handler envA tblA [] msgSpend).table [] msgSpend =
      ⟨(lambda_handler envA tblA [] msgSpend).table, [], 200, "Already processed", []⟩ :=
  second_delivery_same_message_id_short_circuits envA envA tblA [] [] msgSpend msgSpend
    rfl (by decide) (by decide) (by decide) (by decide) (fun _ _ h => Option.noConfusion h)

/-- Witness for C4: a wrong code leaves the fixture session pending and
the records in place; the expired cancel removes the session and deletes
nothing. -/
theorem wrong_code_or_expired_confirm_deletes_nothing_witness :
    exA1 ∈ (lambda_handler envA tblA [("alice", sessW)] msgWrong).table ∧
    getSession (lambda_handler envA tblA [("alice", sessW)] msgWrong).sessions "alice" =
      some sessW ∧
    exA1 ∈ (lambda_handler envLate tblA [("alice", sessW)] msgCancel).table ∧
    getSession (lambda_handler envLate tblA [("alice", sessW)] msgCancel).sessions "alice" =
      none := by
  have h1 := wrong_code_or_expired_confirm_deletes_nothing envA tblA [("alice", sessW)]
    msgWrong sessW (by decide) (by decide) (by decide) (by decide) (by decide)
  have h2 := wrong_code_or_expired_confirm_deletes_nothing envLate tblA [("alice", sessW)]
    msgCancel sessW (by decide) (by decide) (by decide) (by decide) (by decide)
  have h1b := h1.1 (by decide) "zzzz" (by decide) (by decide)
  have h2b := h2.2 (by decide)
  exact ⟨h1b.1 exA1 (by decide), h1b.2.2 (by decide),
    h2b.1 exA1 (by decide), h2b.2 (by decide)⟩

/-- Witness for C6 at concrete calls, spans and loaders. -/
theorem analyze_expense_failure_modes_return_fallback_witness :
    analyze_expense .networkError loadsNone "taxi 300" = fallback_analysis "taxi 300" ∧
    analyze_expense .timeoutError loadsNone "taxi 300" = fallback_analysis "taxi 300" ∧
    analyze_expense .httpError loadsNone "taxi 300" = fallback_analysis "taxi 300" ∧
    analyze_expense (.ok "no json here") loadsNone "taxi 300" = fallback_analysis "taxi 300" ∧
    analyze_expense (.ok rtSpan) loadsNone "taxi 300" = fallback_analysis "taxi 300" ∧
    analyze_expense (.ok rtSpan) loadsMissing "taxi 300" = fallback_analysis "taxi 300" := by
  refine ⟨?_, ?_, ?_, ?_, ?_, ?_⟩
  · exact (analyze_expense_failure_modes_return_fallback _ loadsNone _).1 rfl
  · exact (analyze_expense_failure_modes_return_fallback _ loadsNone _).2.1 rfl
  · exact (analyze_expense_failure_modes_return_fallback _ loadsNone _).2.2.1 rfl
  · exact (analyze_expense_failure_modes_return_fallback _ loadsNone _).2.2.2.1
      "no json here" rfl (by decide)
  · exact (analyze_expense_failure_modes_return_fallback _ loadsNone _).2.2.2.2.1
      rtSpan [obr, 'x', cbr] rfl (by decide) rfl
  · exact (analyze_expense_failure_modes_return_fallback _ loadsMissing _).2.2.2.2.2
      rtSpan [obr, 'x', cbr] objMissing rfl (by decide) rfl (Or.inl rfl)

/-- Witness for C10: two id-less messages from different users. -/
theorem missing_message_id_shared_none_key_witness :
    (lambda_handler envA [] [] msgNoId1).status = 200 ∧
    (lambda_handler envA [] [] msgNoId1).body ≠ "Invalid request" ∧
    (lambda_handler envA [] [] msgNoId1).body ≠ "Already processed" ∧
    check_if_processed (lambda_handler envA [] [] msgNoId1).table "None" = true ∧
    lambda_handler envA (lambda_handler envA [] [] msgNoId1).table [] msgNoId2 =
      ⟨(lambda_handler envA [] [] msgNoId1).table, [], 200, "Already processed", []⟩ :=
  missing_message_id_shared_none_key envA envA [] [] [] msgNoId1 msgNoId2 rfl rfl
    (by decide) (by decide) (by decide) (by decide) (by decide)
    (fun _ _ h => Option.noConfusion h)

end BudgetBot
